import Mathlib

/-!
# my-android-jks: self-signed certificate and JKS keystore generator

A shallow embedding of `main.go`.

* A Go string is a list of characters and a byte slice a list of bytes.  The
  program inspects strings only for the ASCII characters `.` and `/`, which
  never occur inside a multi-byte UTF-8 sequence, so working on characters and
  working on bytes agree.
* Paths follow the Unix rule: the only separator is `/`.
* A `time.Time` is an instant in nanoseconds, read on the UTC calendar.
* Everything the program obtains from the operating system or from a library
  (the clock, `crypto/rand.Reader`, `crypto/rsa`, `crypto/x509`, the hash
  functions, `encoding/json`, the keystore library, the file system,
  `unicode.ToLower`) is a field of `Env`.  An answer that may change from call to call is a function
  of the history of calls made so far; the program is a function from an
  environment and a history to a result and the extended history.
-/

namespace JKS

/-! ## Strings, bytes and paths -/

/-- A Go `string`. -/
abbrev Str := List Char

/-- A Go `byte`. -/
abbrev Byte := Fin 256

/-- A Go `[]byte`. -/
abbrev Bytes := List Byte

/-- Go `os.IsPathSeparator` on a Unix system. -/
def isPathSeparator (c : Char) : Bool := c == '/'

/-- The loop of `filepath.Ext`, run over the path from its last character
backwards; `acc` is the part of the path already passed, in path order. -/
def extLoop : List Char → List Char → List Char
  | [], _ => []
  | c :: rest, acc =>
    if isPathSeparator c then []
    else if c = '.' then c :: acc
    else extLoop rest (c :: acc)

/-- Go `filepath.Ext`: the suffix beginning at the final dot in the final element
of the path, empty if there is no dot. -/
def Ext (path : Str) : Str := extLoop path.reverse []

/-- The directory half of `filepath.Split`: the path up to and including its
last separator.  Used to state what "the directory" of a path is. -/
def splitDir (path : Str) : Str :=
  (path.reverse.dropWhile (fun c => !isPathSeparator c)).reverse

/-- Function `generateTimestampedFilename` (main.go 103-112), after the timestamp has
been formatted: `timestamp` is the value of
`time.Now().Format("20060102-150405")`. -/
def generateTimestampedFilename (timestamp : Str) (basePath : Str) : Str × Str :=
  let ext := Ext basePath
  let base := basePath.take (basePath.length - ext.length)
  let jksPath := base ++ "-".toList ++ timestamp ++ ext
  let infoPath := base ++ "-".toList ++ timestamp ++ ".txt".toList
  (jksPath, infoPath)

/-! ## Fingerprints -/

/-- A Go fixed-size byte array `[n]byte`. -/
structure Digest (n : Nat) where
  bytes : Bytes
  size : bytes.length = n

/-- The table of `encoding/hex`. -/
def hextable : List Char := "0123456789abcdef".toList

/-- Go `hex.EncodeToString`: two characters of `hextable` per byte, the high
nibble `v >> 4` first, then the low nibble `v & 0x0f`. -/
def hexEncodeToString : Bytes → Str
  | [] => []
  | v :: rest =>
    hextable.getD (v.val >>> 4) '0' :: hextable.getD (v.val &&& 0x0f) '0' ::
      hexEncodeToString rest

/-- The three hash functions of the standard library, with their result
types `[16]byte`, `[20]byte` and `[32]byte`. -/
structure Hashes where
  md5Sum : Bytes → Digest 16
  sha1Sum : Bytes → Digest 20
  sha256Sum256 : Bytes → Digest 32

/-- Function `calculateFingerprints` (main.go 68-79). -/
def calculateFingerprints (h : Hashes) (certBytes : Bytes) : Str × Str × Str :=
  let md5Hash := h.md5Sum certBytes
  let md5Str := hexEncodeToString md5Hash.bytes
  let sha1Hash := h.sha1Sum certBytes
  let sha1Str := hexEncodeToString sha1Hash.bytes
  let sha256Hash := h.sha256Sum256 certBytes
  let sha256Str := hexEncodeToString sha256Hash.bytes
  (md5Str, sha1Str, sha256Str)

/-- Go `fromHexChar` of `encoding/hex`, on the lowercase digits: the value of a
hexadecimal digit. -/
def fromHexChar (c : Char) : Option Nat :=
  if '0' ≤ c ∧ c ≤ '9' then some (c.toNat - '0'.toNat)
  else if 'a' ≤ c ∧ c ≤ 'f' then some (c.toNat - 'a'.toNat + 10)
  else none

/-- Go `hex.DecodeString` on lowercase input: each pair of digits is one byte. -/
def hexDecodeString : Str → Option (List Nat)
  | [] => some []
  | [_] => none
  | a :: b :: rest =>
    match fromHexChar a, fromHexChar b, hexDecodeString rest with
    | some x, some y, some bs => some ((x <<< 4 ||| y) :: bs)
    | _, _, _ => none

/-- The conversion `[]byte(s)`: the UTF-8 bytes of a string. -/
def bytesOf (s : Str) : Bytes :=
  s.flatMap fun c =>
    (String.utf8EncodeChar c).map fun b => ⟨b.toNat % 256, Nat.mod_lt _ (by decide)⟩

/-! ## Time

A `time.Time` is an instant, counted in nanoseconds from the Unix epoch, and
read on the UTC calendar (the process runs with `TZ=UTC`).  The calendar is
the proleptic Gregorian one, as in package `time`. -/

/-- A Go `time.Time`. -/
structure Time where
  nanos : Int
  deriving DecidableEq, Repr

/-- Conversion to Go's `int64` (two's complement wrap-around). -/
def wrapInt64 (x : Int) : Int := (x + 2 ^ 63) % 2 ^ 64 - 2 ^ 63

/-- Go `Time.UnixNano`: the instant in nanoseconds as an `int64`. -/
def Time.UnixNano (t : Time) : Int := wrapInt64 t.nanos

/-- Whole seconds since the epoch. -/
def Time.unixSec (t : Time) : Int := t.nanos / 1000000000

/-- Go `Time.Nanosecond`: the nanoseconds within the second. -/
def Time.nsec (t : Time) : Int := t.nanos % 1000000000

/-- Whole days since 1970-01-01. -/
def Time.unixDays (t : Time) : Int := t.unixSec / 86400

/-- Seconds within the day. -/
def Time.secOfDay (t : Time) : Int := t.unixSec % 86400

/-- Leap years of the Gregorian calendar. -/
def isLeap (year : Int) : Bool :=
  year % 4 == 0 && (year % 100 != 0 || year % 400 == 0)

/-- Year, month and day of the day `z` days after 1970-01-01. -/
def civilFromDays (z : Int) : Int × Int × Int :=
  let z := z + 719468
  let era := z / 146097
  let doe := z - era * 146097
  let yoe := (doe - doe / 1460 + doe / 36524 - doe / 146096) / 365
  let y := yoe + era * 400
  let doy := doe - (365 * yoe + yoe / 4 - yoe / 100)
  let mp := (5 * doy + 2) / 153
  let d := doy - (153 * mp + 2) / 5 + 1
  let m := if mp < 10 then mp + 3 else mp - 9
  (if m ≤ 2 then y + 1 else y, m, d)

/-- Go `Time.Date`: year, month, day. -/
def Time.Date (t : Time) : Int × Int × Int := civilFromDays t.unixDays

/-- Go `Time.Clock`: hour, minute, second. -/
def Time.Clock (t : Time) : Int × Int × Int :=
  (t.secOfDay / 3600, t.secOfDay % 3600 / 60, t.secOfDay % 60)

/-- The table `daysBefore` of package `time`: days of a non-leap year before
the month with the given index (0 for January). -/
def daysBefore : List Int := [0, 31, 59, 90, 120, 151, 181, 212, 243, 273, 304, 334, 365]

/-- Days from 1970-01-01 to the first of January of `year`. -/
def daysSinceEpoch (year : Int) : Int :=
  let y := year - 1
  365 * y + y / 4 - y / 100 + y / 400 - 719162

/-- Go `time.Date` in UTC: the month is normalised into 1..12, carrying into the
year; a day beyond the end of the month runs into the following month. -/
def Date (year month day hour min sec nsec : Int) : Time :=
  let m := month - 1
  let year := year + m / 12
  let m := m % 12
  let d := daysSinceEpoch year + daysBefore.getD m.toNat 0
    + (if isLeap year && m ≥ 2 then 1 else 0) + (day - 1)
  ⟨(d * 86400 + hour * 3600 + min * 60 + sec) * 1000000000 + nsec⟩

/-- Go `Time.AddDate`, on the UTC calendar and on unbounded integers: it
agrees with package `time` wherever the result is an instant a `time.Time`
can hold (Go keeps the seconds in an int64 and wraps beyond it). -/
def Time.AddDate (t : Time) (years months days : Int) : Time :=
  let (year, month, day) := t.Date
  let (hour, min, sec) := t.Clock
  JKS.Date (year + years) (month + months) (day + days) hour min sec t.nsec

/-- Go `appendInt` of package `time`: the decimal form of `x`, zero-padded to
`width` digits, with a leading minus sign for a negative number. -/
def appendInt (x : Int) (width : Nat) : Str :=
  let ds := Nat.toDigits 10 x.natAbs
  (if x < 0 then ['-'] else []) ++ List.replicate (width - ds.length) '0' ++ ds

/-- Go `t.Format("20060102-150405")`. -/
def Time.FormatStamp (t : Time) : Str :=
  let (year, month, day) := t.Date
  let (hour, min, sec) := t.Clock
  appendInt year 4 ++ appendInt month 2 ++ appendInt day 2 ++ ['-']
    ++ appendInt hour 2 ++ appendInt min 2 ++ appendInt sec 2

/-- Go `t.Format("2006-01-02 15:04:05")`. -/
def Time.FormatDateTime (t : Time) : Str :=
  let (year, month, day) := t.Date
  let (hour, min, sec) := t.Clock
  appendInt year 4 ++ ['-'] ++ appendInt month 2 ++ ['-'] ++ appendInt day 2 ++ [' ']
    ++ appendInt hour 2 ++ [':'] ++ appendInt min 2 ++ [':'] ++ appendInt sec 2

/-! ## Data -/

/-- Bit strength of the generated key (main.go 25). -/
def RSABitsSize : Int := 2048

/-- Name of the configuration file (main.go 26). -/
def ConfigFilename : Str := "build/config.json".toList

structure KeystoreConfig where
  FilePath : Str
  Password : Str
  KeyAlias : Str
  KeyPass : Str
  deriving DecidableEq, Repr

structure CAConfig where
  Country : Str
  Province : Str
  Organization : Str
  OrganizationalUnit : Str
  CommonName : Str
  ValidityYears : Int
  deriving DecidableEq, Repr

structure Config where
  Keystore : KeystoreConfig
  CA : CAConfig
  deriving DecidableEq, Repr

structure CertInfo where
  SerialNumber : Str
  Subject : Str
  Issuer : Str
  NotBefore : Str
  NotAfter : Str
  MD5Fingerprint : Str
  SHA1Fingerprint : Str
  SHA256Fingerprint : Str
  deriving DecidableEq, Repr

/-- A Go `error` value. -/
structure GoError where
  msg : Str
  deriving DecidableEq, Repr

/-- The fields of `pkix.Name` the program sets; the others keep their zero
value. -/
structure Name where
  Country : List Str
  Province : List Str
  Organization : List Str
  OrganizationalUnit : List Str
  CommonName : Str
  deriving DecidableEq, Repr

/-- The fields of `x509.Certificate` the program sets or reads.  A template
leaves `Issuer` at its zero value. -/
structure Certificate where
  SerialNumber : Int
  Issuer : Name
  Subject : Name
  NotBefore : Time
  NotAfter : Time
  KeyUsage : Nat
  deriving DecidableEq, Repr

/-- Go `x509.KeyUsageDigitalSignature = 1 << 0`. -/
def KeyUsageDigitalSignature : Nat := 1 <<< 0

/-- Go `x509.KeyUsageKeyEncipherment = 1 << 2`. -/
def KeyUsageKeyEncipherment : Nat := 1 <<< 2

/-- Go `rsa.PublicKey`. -/
structure PublicKey where
  N : Nat
  E : Int
  deriving DecidableEq, Repr

/-- Go `rsa.PrivateKey`; the public key is an embedded field. -/
structure PrivateKey where
  PublicKey : PublicKey
  D : Nat
  Primes : List Nat
  deriving DecidableEq, Repr

/-- Go `keystore.Certificate`. -/
structure KeystoreCertificate where
  Type_ : Str
  Content : Bytes
  deriving DecidableEq, Repr

/-- Go `keystore.PrivateKeyEntry`. -/
structure PrivateKeyEntry where
  CreationTime : Time
  PrivateKey : Bytes
  CertificateChain : List KeystoreCertificate
  deriving DecidableEq, Repr

/-- The random sources a caller could hand to the libraries; the program only
ever names `crypto/rand.Reader`. -/
inductive RandomSource where
  | randReader
  deriving DecidableEq, Repr

/-! ## The environment -/

/-- A call that leaves the program: to the clock, the random source, the file
system, the keystore object, the log or standard output. -/
inductive Call where
  | now
  | readFile (name : Str)
  | rsaGenerateKey (random : RandomSource) (bits : Int)
  | createCertificate (random : RandomSource) (template parent : Certificate)
      (pub : PublicKey) (priv : PrivateKey)
  | mkdirAll (path : Str) (perm : Nat)
  | keystoreNew
  | setPrivateKeyEntry (keyAlias : Str) (entry : PrivateKeyEntry) (password : Bytes)
  | osCreate (name : Str)
  | store (file : Str) (password : Bytes)
  | close (file : Str)
  | fprintf (file : Str) (text : Str)
  | logPrint (text : Str)
  | print (text : Str)
  deriving DecidableEq, Repr

/-- The history of calls made so far, oldest first. -/
abbrev History := List Call

/-- What the operating system and the libraries answer.  An answer that can
differ from one call to the next takes the history before the call. -/
structure Env where
  now : History → Time
  readFile : History → Str → Except GoError Bytes
  jsonUnmarshal : Bytes → Except GoError Config
  rsaGenerateKey : History → RandomSource → Int → Except GoError PrivateKey
  createCertificate : History → RandomSource → Certificate → Certificate → PublicKey →
    PrivateKey → Except GoError Bytes
  parseCertificate : Bytes → Except GoError Certificate
  hashes : Hashes
  nameString : Name → Str
  marshalPKCS1PrivateKey : PrivateKey → Bytes
  setPrivateKeyEntry : History → Str → PrivateKeyEntry → Bytes → Except GoError Unit
  osCreate : History → Str → Except GoError Unit
  store : History → Str → Bytes → Except GoError Unit
  toLower : Char → Char

/-! ## The program -/

/-- Function `GenRsaPK` (main.go 63-65). -/
def GenRsaPK (env : Env) (size : Int) (h : History) : Except GoError PrivateKey × History :=
  (env.rsaGenerateKey h .randReader size, h ++ [.rsaGenerateKey .randReader size])

/-- Go `big.Int.String`: the decimal form. -/
def bigString (x : Int) : Str := appendInt x 0

/-- Function `parseCertInfo` (main.go 82-100). -/
def parseCertInfo (env : Env) (certBytes : Bytes) : Except GoError CertInfo :=
  match env.parseCertificate certBytes with
  | .error err => .error err
  | .ok cert =>
    let (md5Str, sha1Str, sha256Str) := calculateFingerprints env.hashes certBytes
    .ok {
      SerialNumber := bigString cert.SerialNumber
      Subject := env.nameString cert.Subject
      Issuer := env.nameString cert.Issuer
      NotBefore := cert.NotBefore.FormatDateTime
      NotAfter := cert.NotAfter.FormatDateTime
      MD5Fingerprint := md5Str
      SHA1Fingerprint := sha1Str
      SHA256Fingerprint := sha256Str }

/-- Function `loadConfig` (main.go 151-161). -/
def loadConfig (env : Env) (filename : Str) (h : History) : Except GoError Config × History :=
  match env.readFile h filename with
  | .error err => (.error err, h ++ [.readFile filename])
  | .ok data =>
    match env.jsonUnmarshal data with
    | .error err => (.error err, h ++ [.readFile filename])
    | .ok cfg => (.ok cfg, h ++ [.readFile filename])

/-- The certificate template of `generateAPKCert` (main.go 171-186).  The three
`time.Now()` calls of the composite literal are made in source order. -/
def certTemplate (env : Env) (cfg : Config) (h : History) : Certificate × History :=
  let subject : Name := {
    Country := [cfg.CA.Country]
    Province := [cfg.CA.Province]
    Organization := [cfg.CA.Organization]
    OrganizationalUnit := [cfg.CA.OrganizationalUnit]
    CommonName := cfg.CA.CommonName }
  let serialNow := env.now h
  let h := h ++ [.now]
  let notBeforeNow := env.now h
  let h := h ++ [.now]
  let notAfterNow := env.now h
  let h := h ++ [.now]
  ({ SerialNumber := serialNow.UnixNano
     Issuer := ⟨[], [], [], [], []⟩
     Subject := subject
     NotBefore := notBeforeNow
     NotAfter := notAfterNow.AddDate cfg.CA.ValidityYears 0 0
     KeyUsage := KeyUsageDigitalSignature ||| KeyUsageKeyEncipherment }, h)

/-- The keystore entry of `generateAPKCert` (main.go 203-207), built at the
time `creationTime`. -/
def keystoreEntry (env : Env) (key : PrivateKey) (certBytes : Bytes) (creationTime : Time) :
    PrivateKeyEntry :=
  { CreationTime := creationTime
    PrivateKey := env.marshalPKCS1PrivateKey key
    CertificateChain := [{ Type_ := "X509".toList, Content := certBytes }] }

/-- Function `generateAPKCert` (main.go 164-223). -/
def generateAPKCert (env : Env) (cfg : Config) (h : History) : Except GoError CertInfo × History :=
  match GenRsaPK env RSABitsSize h with
  | (.error err, h) => (.error err, h)
  | (.ok key, h) =>
    let (template, h) := certTemplate env cfg h
    let certResult := env.createCertificate h .randReader template template key.PublicKey key
    let h := h ++ [.createCertificate .randReader template template key.PublicKey key]
    match certResult with
    | .error err => (.error err, h)
    | .ok certBytes =>
      match parseCertInfo env certBytes with
      | .error err => (.error err, h)
      | .ok certInfo =>
        let h := h ++ [.mkdirAll "build".toList 0o755, .keystoreNew]
        let entry := keystoreEntry env key certBytes (env.now h)
        let h := h ++ [.now]
        let setResult :=
          env.setPrivateKeyEntry h cfg.Keystore.KeyAlias entry (bytesOf cfg.Keystore.KeyPass)
        let h := h ++ [.setPrivateKeyEntry cfg.Keystore.KeyAlias entry
          (bytesOf cfg.Keystore.KeyPass)]
        match setResult with
        | .error err => (.error err, h)
        | .ok _ =>
          let createResult := env.osCreate h cfg.Keystore.FilePath
          let h := h ++ [.osCreate cfg.Keystore.FilePath]
          match createResult with
          | .error err => (.error err, h)
          | .ok _ =>
            let storeResult := env.store h cfg.Keystore.FilePath (bytesOf cfg.Keystore.Password)
            let h := h ++ [.store cfg.Keystore.FilePath (bytesOf cfg.Keystore.Password),
              .close cfg.Keystore.FilePath]
            match storeResult with
            | .error err => (.error err, h)
            | .ok _ => (.ok certInfo, h)

/-- The rule `c + strings.Repeat(c, 50)`. -/
def rule (c : Char) : Str := c :: List.replicate 50 c

/-- The texts `saveCertInfoToFile` writes, one per `Fprintf` (main.go 122-145). -/
def reportTexts (cfg : Config) (certInfo : CertInfo) : List Str :=
  [ rule '=' ++ "\n".toList,
    "APK签名证书信息\n".toList,
    rule '=' ++ "\n\n".toList,
    "证书信息：\n".toList,
    rule '-' ++ "\n".toList,
    "Keystore 路径: ".toList ++ cfg.Keystore.FilePath ++ "\n".toList,
    "Key Alias: ".toList ++ cfg.Keystore.KeyAlias ++ "\n".toList,
    "Keystore 密码: ".toList ++ cfg.Keystore.Password ++ "\n".toList,
    "Key 密码: ".toList ++ cfg.Keystore.KeyPass ++ "\n".toList,
    "\n".toList,
    "证书详情：\n".toList,
    "序列号: ".toList ++ certInfo.SerialNumber ++ "\n".toList,
    "主题: ".toList ++ certInfo.Subject ++ "\n".toList,
    "颁发者: ".toList ++ certInfo.Issuer ++ "\n".toList,
    "有效期: ".toList ++ certInfo.NotBefore ++ " 至 ".toList ++ certInfo.NotAfter ++ "\n".toList,
    "\n".toList,
    "证书指纹：\n".toList,
    "MD5: ".toList ++ certInfo.MD5Fingerprint ++ "\n".toList,
    "SHA1: ".toList ++ certInfo.SHA1Fingerprint ++ "\n".toList,
    "SHA256: ".toList ++ certInfo.SHA256Fingerprint ++ "\n".toList,
    rule '=' ++ "\n".toList ]

/-- Function `saveCertInfoToFile` (main.go 115-148). -/
def saveCertInfoToFile (env : Env) (filename : Str) (cfg : Config) (certInfo : CertInfo)
    (h : History) : Except GoError Unit × History :=
  let createResult := env.osCreate h filename
  let h := h ++ [.osCreate filename]
  match createResult with
  | .error err => (.error err, h)
  | .ok _ =>
    (.ok (), h ++ (reportTexts cfg certInfo).map (Call.fprintf filename) ++ [.close filename])

/-- The texts `main` prints on success (main.go 264-286). -/
def consoleTexts (cfg : Config) (infoPath : Str) (certInfo : CertInfo) : List Str :=
  [ rule '=' ++ "\n".toList,
    "APK签名证书生成成功！\n".toList,
    rule '=' ++ "\n".toList,
    "\n".toList,
    "证书信息：\n".toList,
    rule '-' ++ "\n".toList,
    "Keystore 路径: ".toList ++ cfg.Keystore.FilePath ++ "\n".toList,
    "证书信息文件: ".toList ++ infoPath ++ "\n".toList,
    "Key Alias: ".toList ++ cfg.Keystore.KeyAlias ++ "\n".toList,
    "Keystore 密码: ".toList ++ cfg.Keystore.Password ++ "\n".toList,
    "Key 密码: ".toList ++ cfg.Keystore.KeyPass ++ "\n".toList,
    "\n".toList,
    "证书详情：\n".toList,
    "序列号: ".toList ++ certInfo.SerialNumber ++ "\n".toList,
    "主题: ".toList ++ certInfo.Subject ++ "\n".toList,
    "颁发者: ".toList ++ certInfo.Issuer ++ "\n".toList,
    "有效期: ".toList ++ certInfo.NotBefore ++ " 至 ".toList ++ certInfo.NotAfter ++ "\n".toList,
    "\n".toList,
    "证书指纹：\n".toList,
    "MD5: ".toList ++ certInfo.MD5Fingerprint ++ "\n".toList,
    "SHA1: ".toList ++ certInfo.SHA1Fingerprint ++ "\n".toList,
    "SHA256: ".toList ++ certInfo.SHA256Fingerprint ++ "\n".toList,
    rule '=' ++ "\n".toList ]

/-- The configuration literal of `main` (main.go 230-245). -/
def defaultConfig : Config :=
  { Keystore := {
      FilePath := "build/my-release-key.jks".toList
      Password := "chrelyonly".toList
      KeyAlias := "chrelyonly".toList
      KeyPass := "chrelyonly".toList }
    CA := {
      Country := "CN".toList
      Province := "Yunnan".toList
      Organization := "chrelyonly".toList
      OrganizationalUnit := "chrelyonly".toList
      CommonName := "chrelyonly CA".toList
      ValidityYears := 100 } }

/-- How the process ends: `main` returns, or `log.Fatalf` exits with status 1. -/
inductive Exit where
  | returned
  | fatal
  deriving DecidableEq, Repr

/-- The part of `main` from the timestamped file names on (main.go 248-286), for the
configuration `cfg` chosen in its first lines. -/
def runPipeline (env : Env) (cfg : Config) (h : History) : Exit × History :=
  let timestamp := (env.now h).FormatStamp
  let h := h ++ [.now]
  let (jksPath, infoPath) := generateTimestampedFilename timestamp cfg.Keystore.FilePath
  let cfg := { cfg with Keystore := { cfg.Keystore with FilePath := jksPath } }
  match generateAPKCert env cfg h with
  | (.error err, h) =>
    (.fatal, h ++ [.logPrint ("生成APK签名证书失败: ".toList ++ err.msg)])
  | (.ok certInfo, h) =>
    let h :=
      match saveCertInfoToFile env infoPath cfg certInfo h with
      | (.error err, h) => h ++ [.logPrint ("保存证书信息文件失败: ".toList ++ err.msg)]
      | (.ok _, h) => h
    (.returned, h ++ (consoleTexts cfg infoPath certInfo).map Call.print)

/-- Function `main` (main.go 225-287). -/
def main (env : Env) (h : History) : Exit × History :=
  match loadConfig env ConfigFilename h with
  | (.error _, h) =>
    runPipeline env defaultConfig (h ++ [.logPrint "加载配置失败，使用默认值".toList])
  | (.ok cfg, h) => runPipeline env cfg h

/-- A character that is neither a path separator nor a dot. -/
def plainChar (c : Char) : Prop := c ≠ '/' ∧ c ≠ '.'

/-- A decimal digit or the minus sign. -/
def stampChar (c : Char) : Prop := c ∈ "0123456789-".toList

/-! ## Reading the history -/

/-- The calls made after the history `before`. -/
def newCalls (before after : History) : History := after.drop before.length

/-- The key-generation requests in a history: random source and bit strength. -/
def keyRequests (h : History) : List (RandomSource × Int) :=
  h.filterMap fun c =>
    match c with
    | .rsaGenerateKey random bits => some (random, bits)
    | _ => none

/-- The arguments of one call of `x509.CreateCertificate`. -/
structure CertRequest where
  random : RandomSource
  template : Certificate
  parent : Certificate
  pub : PublicKey
  priv : PrivateKey
  deriving DecidableEq, Repr

/-- The certificate requests in a history. -/
def certRequests (h : History) : List CertRequest :=
  h.filterMap fun c =>
    match c with
    | .createCertificate random template parent pub priv =>
      some ⟨random, template, parent, pub, priv⟩
    | _ => none

/-- The serial numbers of the templates submitted in a history. -/
def serials (h : History) : List Int := (certRequests h).map (·.template.SerialNumber)

/-- The entries set in the keystore in a history: alias, entry, password. -/
def entriesSet (h : History) : List (Str × PrivateKeyEntry × Bytes) :=
  h.filterMap fun c =>
    match c with
    | .setPrivateKeyEntry keyAlias entry password => some (keyAlias, entry, password)
    | _ => none

/-- The keystore writes in a history: file and container password. -/
def stores (h : History) : List (Str × Bytes) :=
  h.filterMap fun c =>
    match c with
    | .store file password => some (file, password)
    | _ => none

/-- Go `KeyStore.convertAlias` of a keystore made by `keystore.New()` without
options: the alias in lower case (`strings.ToLower`, rune by rune). -/
def convertAlias (env : Env) (keyAlias : Str) : Str := keyAlias.map env.toLower

/-- The names under which the keystore keeps the entries set in a history:
`SetPrivateKeyEntry` files an entry under the converted alias. -/
def keystoreKeys (env : Env) (h : History) : List Str :=
  (entriesSet h).map fun e => convertAlias env e.1

/-- Whether a result is a success. -/
def succeeded {α : Type} (r : Except GoError α) : Bool :=
  match r with
  | .ok _ => true
  | .error _ => false

/-! ## Sample environments and configurations -/

/-- The instant 2024-01-01 00:00:00 UTC in nanoseconds. -/
def newYear2024 : Int := 1704067200000000000

/-- A small RSA key (p = 61, q = 53). -/
def sampleKey : PrivateKey :=
  { PublicKey := { N := 3233, E := 17 }, D := 413, Primes := [61, 53] }

/-- The first bytes of a DER certificate, standing for the whole. -/
def sampleDER : Bytes := [0x30, 0x82, 0x03, 0x0f]

/-- The subject of the test configuration. -/
def sampleName : Name :=
  { Country := ["CN".toList], Province := ["Yunnan".toList],
    Organization := ["Test".toList], OrganizationalUnit := ["Dev".toList],
    CommonName := "Test CA".toList }

/-- The certificate the sample parser reads from any bytes. -/
def sampleParsed : Certificate :=
  { SerialNumber := 1704067200000001000
    Issuer := sampleName
    Subject := sampleName
    NotBefore := ⟨1704067200000000000⟩
    NotAfter := ⟨2019686400000000000⟩
    KeyUsage := 5 }

/-- Hash functions with constant digests. -/
def sampleHashes : Hashes :=
  { md5Sum := fun _ => ⟨List.replicate 16 0xd4, rfl⟩
    sha1Sum := fun _ => ⟨List.replicate 20 0xda, rfl⟩
    sha256Sum256 := fun _ => ⟨List.replicate 32 0xe3, rfl⟩ }

/-- The configuration of the end-to-end scenario: ten years, alias testkey,
container password pw1, entry password pw2. -/
def testConfig : Config :=
  { Keystore := {
      FilePath := "build/test.jks".toList
      Password := "pw1".toList
      KeyAlias := "testkey".toList
      KeyPass := "pw2".toList }
    CA := {
      Country := "CN".toList
      Province := "Yunnan".toList
      Organization := "Test".toList
      OrganizationalUnit := "Dev".toList
      CommonName := "Test CA".toList
      ValidityYears := 10 } }

/-- An environment in which every library call succeeds, the configuration
file is missing, and the clock advances by a microsecond with every call. -/
def sampleEnv : Env :=
  { now := fun h => ⟨newYear2024 + 1000 * h.length⟩
    readFile := fun _ _ => .error ⟨"open build/config.json: no such file or directory".toList⟩
    jsonUnmarshal := fun _ => .ok testConfig
    rsaGenerateKey := fun _ _ _ => .ok sampleKey
    createCertificate := fun _ _ _ _ _ _ => .ok sampleDER
    parseCertificate := fun _ => .ok sampleParsed
    hashes := sampleHashes
    nameString := fun n => "CN=".toList ++ n.CommonName
    marshalPKCS1PrivateKey := fun _ => [0x30, 0x82, 0x04, 0xa4]
    setPrivateKeyEntry := fun _ _ _ _ => .ok ()
    osCreate := fun _ _ => .ok ()
    store := fun _ _ _ => .ok ()
    toLower := Char.toLower }

/-- The content of a configuration file. -/
def configFile : Bytes :=
  bytesOf ("\x7b\"keystore\":\x7b\"filePath\":\"out/app.jks\",\"password\":\"s3cret\","
    ++ "\"keyAlias\":\"release\",\"keyPass\":\"k3y\"\x7d,"
    ++ "\"ca\":\x7b\"country\":\"US\",\"province\":\"CA\",\"organization\":\"Acme\","
    ++ "\"organizationalUnit\":\"Mobile\",\"commonName\":\"Acme CA\","
    ++ "\"validityYears\":25\x7d\x7d").toList

/-- The configuration written in `configFile`. -/
def loadedConfig : Config :=
  { Keystore := {
      FilePath := "out/app.jks".toList
      Password := "s3cret".toList
      KeyAlias := "release".toList
      KeyPass := "k3y".toList }
    CA := {
      Country := "US".toList
      Province := "CA".toList
      Organization := "Acme".toList
      OrganizationalUnit := "Mobile".toList
      CommonName := "Acme CA".toList
      ValidityYears := 25 } }

/-- The sample environment with the configuration file present: reading it
gives `configFile`, which decodes to `loadedConfig`; other bytes are not
accepted. -/
def configuredEnv : Env :=
  { sampleEnv with
    readFile := fun _ _ => .ok configFile
    jsonUnmarshal := fun data =>
      if data = configFile then .ok loadedConfig
      else .error ⟨"invalid character".toList⟩ }

/-- The test configuration with capital letters in the alias. -/
def mixedCaseConfig : Config :=
  { testConfig with Keystore := { testConfig.Keystore with KeyAlias := "TestKey".toList } }

/-- The sample environment with a wall clock that is set back by twelve
microseconds once twelve calls have been made. -/
def steppedBackEnv : Env :=
  { sampleEnv with now := fun h => ⟨newYear2024 + 1000 * (h.length % 12)⟩ }

/-- Whether a character is plain can be computed. -/
instance plainCharDecidable : DecidablePred plainChar := fun c => by
  unfold plainChar
  infer_instance

/-- The instant 2024-02-29 12:34:56.000000789 UTC. -/
def leapDay : Time := ⟨1709210096000000789⟩

/-! ## Runs of the program -/

/-- The key request of a run. -/
def keyCall : Call := .rsaGenerateKey .randReader RSABitsSize

/-- The history of a run when the creation time of the keystore entry is
read. -/
def historyAtEntry (env : Env) (cfg : Config) (h : History) (key : PrivateKey) : History :=
  h ++ [keyCall, .now, .now, .now,
    .createCertificate .randReader (certTemplate env cfg (h ++ [keyCall])).1
      (certTemplate env cfg (h ++ [keyCall])).1 key.PublicKey key,
    .mkdirAll "build".toList 0o755, .keystoreNew]

/-- The keystore entry of a run. -/
def entryOfRun (env : Env) (cfg : Config) (h : History) (key : PrivateKey)
    (certBytes : Bytes) : PrivateKeyEntry :=
  keystoreEntry env key certBytes (env.now (historyAtEntry env cfg h key))

/-- The history of a run when the keystore file is created. -/
def historyAtCreate (env : Env) (cfg : Config) (h : History) (key : PrivateKey)
    (certBytes : Bytes) : History :=
  historyAtEntry env cfg h key ++
    [.now, .setPrivateKeyEntry cfg.Keystore.KeyAlias (entryOfRun env cfg h key certBytes)
      (bytesOf cfg.Keystore.KeyPass)]

/-- The calls of a successful run of `generateAPKCert`, in order. -/
def successfulRun (env : Env) (cfg : Config) (h : History) (key : PrivateKey)
    (certBytes : Bytes) : History :=
  historyAtCreate env cfg h key certBytes ++
    [.osCreate cfg.Keystore.FilePath,
     .store cfg.Keystore.FilePath (bytesOf cfg.Keystore.Password),
     .close cfg.Keystore.FilePath]

/-- The default configuration with another number of validity years. -/
def withYears (years : Int) : Config :=
  { defaultConfig with CA := { defaultConfig.CA with ValidityYears := years } }

/-- The configuration `runPipeline` hands to `generateAPKCert` and to the
report: `cfg` with the keystore path replaced by the timestamped one. -/
def stampedConfig (env : Env) (cfg : Config) (h : History) : Config :=
  { cfg with Keystore := { cfg.Keystore with
      FilePath := (generateTimestampedFilename (env.now h).FormatStamp
        cfg.Keystore.FilePath).1 } }

/-! ## The calendar at sample instants -/

/-- The calendar fields, the two layouts and `AddDate` at a leap day: adding
four years keeps 29 February, adding one year or subtracting 55 years gives
1 March. -/
theorem leapDay_calendar :
    leapDay.Date = (2024, 2, 29)
    ∧ leapDay.Clock = (12, 34, 56)
    ∧ leapDay.FormatStamp = "20240229-123456".toList
    ∧ leapDay.FormatDateTime = "2024-02-29 12:34:56".toList
    ∧ leapDay.AddDate 0 0 0 = leapDay
    ∧ (leapDay.AddDate 4 0 0).FormatDateTime = "2028-02-29 12:34:56".toList
    ∧ (leapDay.AddDate 1 0 0).FormatDateTime = "2025-03-01 12:34:56".toList
    ∧ (leapDay.AddDate (-55) 0 0).FormatDateTime = "1969-03-01 12:34:56".toList := by
  decide

/-- The calendar around the epoch: the nanosecond before it, and a hundred
years after it (25 leap days). -/
theorem epoch_calendar :
    (Time.mk (-1)).FormatDateTime = "1969-12-31 23:59:59".toList
    ∧ (Time.mk 0).FormatDateTime = "1970-01-01 00:00:00".toList
    ∧ (Time.mk 0).AddDate 100 0 0 = ⟨3155760000000000000⟩
    ∧ (Time.mk newYear2024).FormatStamp = "20240101-000000".toList := by
  decide

/-- The file names for the default keystore path. -/
theorem default_file_names :
    generateTimestampedFilename "20240101-000000".toList "build/my-release-key.jks".toList
      = ("build/my-release-key-20240101-000000.jks".toList,
         "build/my-release-key-20240101-000000.txt".toList) := by
  decide

/-- The hexadecimal form of three bytes. -/
theorem hexEncodeToString_sample :
    hexEncodeToString [0, 255, 0x1a] = "00ff1a".toList := by
  decide

/-! ## Properties of the formatted timestamp -/

theorem digitChar_stamp (d : Nat) (hd : d < 10) : stampChar (Nat.digitChar d) := by
  unfold stampChar
  interval_cases d <;> decide

theorem toDigitsCore_stamp (fuel n : Nat) (ds : List Char) (hds : ∀ c ∈ ds, stampChar c) :
    ∀ c ∈ Nat.toDigitsCore 10 fuel n ds, stampChar c := by
  induction fuel generalizing n ds with
  | zero => simpa [Nat.toDigitsCore] using hds
  | succ fuel ih =>
    have hcons : ∀ c ∈ Nat.digitChar (n % 10) :: ds, stampChar c := by
      intro c hc
      rcases List.mem_cons.1 hc with rfl | hc
      · exact digitChar_stamp _ (Nat.mod_lt _ (by decide))
      · exact hds c hc
    unfold Nat.toDigitsCore
    by_cases h0 : n / 10 = 0
    · simpa [h0] using hcons
    · simp only [h0, if_false]
      exact ih _ _ hcons

theorem appendInt_stamp (x : Int) (width : Nat) : ∀ c ∈ appendInt x width, stampChar c := by
  intro c hc
  unfold appendInt at hc
  simp only [List.mem_append] at hc
  rcases hc with (hc | hc) | hc
  · by_cases hx : x < 0
    · simp only [hx, if_true, List.mem_singleton] at hc
      rw [hc]; unfold stampChar; decide
    · simp [hx] at hc
  · have := (List.mem_replicate.1 hc).2
    rw [this]; unfold stampChar; decide
  · exact toDigitsCore_stamp _ _ [] (by simp) c hc

/-- Every timestamp the program formats consists of digits and minus signs. -/
theorem FormatStamp_stamp (t : Time) : ∀ c ∈ t.FormatStamp, stampChar c := by
  intro c hc
  unfold Time.FormatStamp at hc
  simp only [List.mem_append, List.mem_singleton] at hc
  rcases hc with (((((hc | hc) | hc) | hc) | hc) | hc) | hc
  · exact appendInt_stamp _ _ c hc
  · exact appendInt_stamp _ _ c hc
  · exact appendInt_stamp _ _ c hc
  · rw [hc]; unfold stampChar; decide
  · exact appendInt_stamp _ _ c hc
  · exact appendInt_stamp _ _ c hc
  · exact appendInt_stamp _ _ c hc

theorem stampChar_plain (c : Char) (hc : stampChar c) : plainChar c := by
  unfold stampChar at hc
  simp only [String.toList, List.mem_cons, List.mem_singleton] at hc
  unfold plainChar
  rcases hc with h | h | h | h | h | h | h | h | h | h | h | h <;>
    first
    | (subst h; exact ⟨by decide, by decide⟩)
    | (exact absurd h (List.not_mem_nil _))

/-- Every timestamp the program formats is free of dots and separators. -/
theorem FormatStamp_plain (t : Time) : ∀ c ∈ t.FormatStamp, plainChar c :=
  fun c hc => stampChar_plain c (FormatStamp_stamp t c hc)

/-! ## Properties of `filepath.Ext` and the timestamped file names -/

theorem extLoop_of_plain (s rest acc : List Char) (hs : ∀ c ∈ s, plainChar c) :
    extLoop (s ++ rest) acc = extLoop rest (s.reverse ++ acc) := by
  induction s generalizing acc with
  | nil => rfl
  | cons c s ih =>
    have hc := hs c (List.mem_cons_self _ _)
    have hs2 : ∀ d ∈ s, plainChar d := fun d hd => hs d (List.mem_cons_of_mem _ hd)
    have step : extLoop (c :: (s ++ rest)) acc = extLoop (s ++ rest) (c :: acc) := by
      simp [extLoop, isPathSeparator, hc.1, hc.2]
    rw [List.cons_append, step, ih (c :: acc) hs2]
    simp

/-- The three shapes of a path, read from its end: a run of plain characters
reaching a dot, reaching a separator, or reaching the start of the path. -/
theorem path_cases (r : List Char) :
    (∃ s t, r = s ++ '.' :: t ∧ ∀ c ∈ s, plainChar c)
    ∨ (∃ s t, r = s ++ '/' :: t ∧ ∀ c ∈ s, plainChar c)
    ∨ (∀ c ∈ r, plainChar c) := by
  induction r with
  | nil => exact Or.inr (Or.inr (by simp))
  | cons c r ih =>
    by_cases h1 : c = '.'
    · exact Or.inl ⟨[], r, by simp [h1], by simp⟩
    by_cases h2 : c = '/'
    · exact Or.inr (Or.inl ⟨[], r, by simp [h2], by simp⟩)
    have hc : plainChar c := ⟨h2, h1⟩
    rcases ih with ⟨s, t, rfl, hs⟩ | ⟨s, t, rfl, hs⟩ | hr
    · refine Or.inl ⟨c :: s, t, by simp, ?_⟩
      intro d hd
      rcases List.mem_cons.1 hd with rfl | hd
      · exact hc
      · exact hs d hd
    · refine Or.inr (Or.inl ⟨c :: s, t, by simp, ?_⟩)
      intro d hd
      rcases List.mem_cons.1 hd with rfl | hd
      · exact hc
      · exact hs d hd
    · refine Or.inr (Or.inr ?_)
      intro d hd
      rcases List.mem_cons.1 hd with rfl | hd
      · exact hc
      · exact hr d hd

/-- A path whose final element ends in `'.' :: e`, `e` without dot or
separator, has the extension `'.' :: e`. -/
theorem Ext_dot (p e : List Char) (he : ∀ c ∈ e, plainChar c) :
    Ext (p ++ '.' :: e) = '.' :: e := by
  have he2 : ∀ c ∈ e.reverse, plainChar c := fun c hc => he c (List.mem_reverse.1 hc)
  unfold Ext
  rw [List.reverse_append, List.reverse_cons, List.append_assoc,
    extLoop_of_plain _ _ _ he2]
  simp [extLoop, isPathSeparator]

/-- A path whose final element has no dot has no extension. -/
theorem Ext_sep (p f : List Char) (hf : ∀ c ∈ f, plainChar c) :
    Ext (p ++ '/' :: f) = [] := by
  have hf2 : ∀ c ∈ f.reverse, plainChar c := fun c hc => hf c (List.mem_reverse.1 hc)
  unfold Ext
  rw [List.reverse_append, List.reverse_cons, List.append_assoc,
    extLoop_of_plain _ _ _ hf2]
  simp [extLoop, isPathSeparator]

/-- A path of plain characters has no extension. -/
theorem Ext_plain (f : List Char) (hf : ∀ c ∈ f, plainChar c) : Ext f = [] := by
  have hf2 : ∀ c ∈ f.reverse, plainChar c := fun c hc => hf c (List.mem_reverse.1 hc)
  unfold Ext
  have := extLoop_of_plain f.reverse [] [] hf2
  rw [List.append_nil] at this
  rw [this]
  rfl

/-- The shape of a path and its extension. -/
theorem Ext_cases (path : List Char) :
    (∃ p e, path = p ++ '.' :: e ∧ (∀ c ∈ e, plainChar c) ∧ Ext path = '.' :: e)
    ∨ (∃ p f, path = p ++ '/' :: f ∧ (∀ c ∈ f, plainChar c) ∧ Ext path = [])
    ∨ ((∀ c ∈ path, plainChar c) ∧ Ext path = []) := by
  rcases path_cases path.reverse with ⟨s, t, hr, hs⟩ | ⟨s, t, hr, hs⟩ | hr
  · have hp : path = t.reverse ++ '.' :: s.reverse := by
      have := congrArg List.reverse hr
      simpa using this
    have hs2 : ∀ c ∈ s.reverse, plainChar c := fun c hc => hs c (List.mem_reverse.1 hc)
    exact Or.inl ⟨t.reverse, s.reverse, hp, hs2, hp ▸ Ext_dot _ _ hs2⟩
  · have hp : path = t.reverse ++ '/' :: s.reverse := by
      have := congrArg List.reverse hr
      simpa using this
    have hs2 : ∀ c ∈ s.reverse, plainChar c := fun c hc => hs c (List.mem_reverse.1 hc)
    exact Or.inr (Or.inl ⟨t.reverse, s.reverse, hp, hs2, hp ▸ Ext_sep _ _ hs2⟩)
  · have hp : ∀ c ∈ path, plainChar c := fun c hc => hr c (List.mem_reverse.2 hc)
    exact Or.inr (Or.inr ⟨hp, Ext_plain _ hp⟩)

/-- The extension is a suffix of the path. -/
theorem Ext_suffix (path : List Char) : ∃ base, path = base ++ Ext path := by
  rcases Ext_cases path with ⟨p, e, hp, _, hx⟩ | ⟨p, f, _, _, hx⟩ | ⟨_, hx⟩
  · exact ⟨p, by rw [hx]; exact hp⟩
  · exact ⟨path, by rw [hx]; simp⟩
  · exact ⟨path, by rw [hx]; simp⟩

/-- The split `base ++ ext` computed by `generateTimestampedFilename`. -/
theorem take_append_Ext (path : List Char) :
    path.take (path.length - (Ext path).length) ++ Ext path = path := by
  obtain ⟨base, hb⟩ := Ext_suffix path
  have hlen : path.length - (Ext path).length = base.length := by
    have := congrArg List.length hb
    simp only [List.length_append] at this
    omega
  rw [hlen]
  have ht : path.take base.length = base := by
    have h2 : (base ++ Ext path).take base.length = base := List.take_left _ _
    rwa [← hb] at h2
  rw [ht]
  exact hb.symm

theorem dropWhile_append_of_forall {α : Type} (q : α → Bool) (l r : List α)
    (hl : ∀ a ∈ l, q a = true) : (l ++ r).dropWhile q = r.dropWhile q := by
  induction l with
  | nil => rfl
  | cons a l ih =>
    have ha := hl a (List.mem_cons_self _ _)
    rw [List.cons_append, List.dropWhile_cons, if_pos ha]
    exact ih fun b hb => hl b (List.mem_cons_of_mem _ hb)

/-- Characters without a separator appended to a path leave its directory. -/
theorem splitDir_append (p f : List Char) (hf : ∀ c ∈ f, c ≠ '/') :
    splitDir (p ++ f) = splitDir p := by
  unfold splitDir
  rw [List.reverse_append, dropWhile_append_of_forall]
  intro c hc
  have := hf c (List.mem_reverse.1 hc)
  simp [isPathSeparator, this]

/-- The extension holds no separator. -/
theorem Ext_no_separator (path : List Char) : ∀ c ∈ Ext path, c ≠ '/' := by
  rcases Ext_cases path with ⟨p, e, _, he, hx⟩ | ⟨p, f, _, _, hx⟩ | ⟨_, hx⟩
  · rw [hx]
    intro c hc
    rcases List.mem_cons.1 hc with rfl | hc
    · decide
    · exact (he c hc).1
  · rw [hx]; simp
  · rw [hx]; simp

/-- A timestamp of plain characters between base and extension leaves the
extension as it was. -/
theorem Ext_insert (path ts : List Char) (hts : ∀ c ∈ ts, plainChar c) :
    Ext (path.take (path.length - (Ext path).length) ++ "-".toList ++ ts ++ Ext path)
      = Ext path := by
  have hdash : ∀ c ∈ '-' :: ts, plainChar c := by
    intro c hc
    rcases List.mem_cons.1 hc with rfl | hc
    · exact ⟨by decide, by decide⟩
    · exact hts c hc
  have hsplit := take_append_Ext path
  rcases Ext_cases path with ⟨p, e, _, he, hx⟩ | ⟨p, f, hp, hf, hx⟩ | ⟨hp, hx⟩
  · rw [hx]
    have := Ext_dot (path.take (path.length - ('.' :: e).length) ++ "-".toList ++ ts) e he
    simpa using this
  · rw [hx] at hsplit ⊢
    simp only [List.length_nil, Nat.sub_zero, List.append_nil] at hsplit ⊢
    rw [hsplit, hp]
    have hfts : ∀ c ∈ f ++ '-' :: ts, plainChar c := by
      intro c hc
      rcases List.mem_append.1 hc with hc | hc
      · exact hf c hc
      · exact hdash c hc
    have := Ext_sep p (f ++ '-' :: ts) hfts
    simpa using this
  · rw [hx] at hsplit ⊢
    simp only [List.length_nil, Nat.sub_zero, List.append_nil] at hsplit ⊢
    rw [hsplit]
    have hall : ∀ c ∈ path ++ '-' :: ts, plainChar c := by
      intro c hc
      rcases List.mem_append.1 hc with hc | hc
      · exact hp c hc
      · exact hdash c hc
    have := Ext_plain (path ++ '-' :: ts) hall
    simpa using this

/-- A timestamp without separator between base and extension leaves the
directory as it was. -/
theorem splitDir_insert (path ts : List Char) (hts : ∀ c ∈ ts, c ≠ '/') :
    splitDir (path.take (path.length - (Ext path).length) ++ "-".toList ++ ts ++ Ext path)
      = splitDir path := by
  have hins : ∀ c ∈ "-".toList ++ ts ++ Ext path, c ≠ '/' := by
    intro c hc
    rcases List.mem_append.1 hc with hc | hc
    · rcases List.mem_append.1 hc with hc | hc
      · have : c = '-' := by simpa using hc
        rw [this]; decide
      · exact hts c hc
    · exact Ext_no_separator path c hc
  have h1 := splitDir_append (path.take (path.length - (Ext path).length))
    ("-".toList ++ ts ++ Ext path) hins
  have h2 := splitDir_append (path.take (path.length - (Ext path).length))
    (Ext path) (Ext_no_separator path)
  rw [take_append_Ext] at h2
  rw [h2, ← h1]
  simp

/-- C5: for every base path and every timestamp string, the path is split as
base ++ ext with ext the extension of the final element (from its last dot,
empty when the final element has no dot); the keystore path is
base ++ "-" ++ ts ++ ext and the report path base ++ "-" ++ ts ++ ".txt";
deleting the inserted "-" ++ ts from the keystore path gives back the
configured path; and, the timestamp holding neither dot nor separator (as
every formatted timestamp does), the keystore path has the extension and the
directory of the configured path. -/
theorem generateTimestampedFilename_paths (basePath ts : Str) :
    let ext := Ext basePath
    let base := basePath.take (basePath.length - ext.length)
    let jksPath := (generateTimestampedFilename ts basePath).1
    let infoPath := (generateTimestampedFilename ts basePath).2
    base ++ ext = basePath
    ∧ ((∃ p e, basePath = p ++ '.' :: e ∧ (∀ c ∈ e, plainChar c) ∧ ext = '.' :: e)
        ∨ (∃ p f, basePath = p ++ '/' :: f ∧ (∀ c ∈ f, plainChar c) ∧ ext = [])
        ∨ ((∀ c ∈ basePath, plainChar c) ∧ ext = []))
    ∧ jksPath = base ++ "-".toList ++ ts ++ ext
    ∧ infoPath = base ++ "-".toList ++ ts ++ ".txt".toList
    ∧ jksPath.take base.length ++ jksPath.drop (base.length + ("-".toList ++ ts).length)
        = basePath
    ∧ ((∀ c ∈ ts, plainChar c) → Ext jksPath = Ext basePath)
    ∧ ((∀ c ∈ ts, c ≠ '/') → splitDir jksPath = splitDir basePath)
    ∧ (∀ t : Time, ∀ c ∈ t.FormatStamp, plainChar c) := by
  intro ext base jksPath infoPath
  have hsplit : base ++ ext = basePath := take_append_Ext basePath
  refine ⟨hsplit, Ext_cases basePath, rfl, rfl, ?_, ?_, ?_, FormatStamp_plain⟩
  · have hj : jksPath = base ++ (("-".toList ++ ts) ++ ext) := by
      show base ++ "-".toList ++ ts ++ ext = _
      simp
    rw [hj, List.take_left, List.drop_append, List.drop_left]
    exact hsplit
  · intro hts
    exact Ext_insert basePath ts hts
  · intro hts
    exact splitDir_insert basePath ts hts

/-- C5, witness: the default keystore path with the timestamp of the first
second of 2024. -/
theorem generateTimestampedFilename_paths_witness :
    (∀ c ∈ "20240101-000000".toList, plainChar c)
    ∧ (∀ c ∈ "20240101-000000".toList, c ≠ '/')
    ∧ Ext "build/my-release-key-20240101-000000.jks".toList = ".jks".toList
    ∧ splitDir "build/my-release-key-20240101-000000.jks".toList = "build/".toList :=
  ⟨by decide, by decide,
   ((generateTimestampedFilename_paths "build/my-release-key.jks".toList
      "20240101-000000".toList).2.2.2.2.2.1 (by decide)).trans (by decide),
   ((generateTimestampedFilename_paths "build/my-release-key.jks".toList
      "20240101-000000".toList).2.2.2.2.2.2.1 (by decide)).trans (by decide)⟩

/-- C10: the keystore path and the report path are equal exactly when the
extension of the configured path is ".txt"; for every other extension, none
included, they are distinct. -/
theorem generateTimestampedFilename_collision (basePath ts : Str) :
    ((generateTimestampedFilename ts basePath).1 = (generateTimestampedFilename ts basePath).2
      ↔ Ext basePath = ".txt".toList)
    ∧ (Ext basePath ≠ ".txt".toList →
        (generateTimestampedFilename ts basePath).1
          ≠ (generateTimestampedFilename ts basePath).2) := by
  have key : (generateTimestampedFilename ts basePath).1
      = (generateTimestampedFilename ts basePath).2 ↔ Ext basePath = ".txt".toList := by
    show basePath.take (basePath.length - (Ext basePath).length) ++ "-".toList ++ ts
        ++ Ext basePath
      = basePath.take (basePath.length - (Ext basePath).length) ++ "-".toList ++ ts
        ++ ".txt".toList ↔ _
    exact List.append_right_inj _
  exact ⟨key, fun h hEq => h (key.1 hEq)⟩

/-- C10, witness: with extension ".jks" the two paths differ; with extension
".txt" they are the same path. -/
theorem generateTimestampedFilename_collision_witness :
    Ext "build/my-release-key.jks".toList ≠ ".txt".toList
    ∧ (generateTimestampedFilename "20240101-000000".toList "build/my-release-key.jks".toList).1
        ≠ (generateTimestampedFilename "20240101-000000".toList
            "build/my-release-key.jks".toList).2
    ∧ (generateTimestampedFilename "20240101-000000".toList "build/keys.txt".toList).1
        = (generateTimestampedFilename "20240101-000000".toList "build/keys.txt".toList).2 :=
  ⟨by decide,
   (generateTimestampedFilename_collision "build/my-release-key.jks".toList
      "20240101-000000".toList).2 (by decide),
   (generateTimestampedFilename_collision "build/keys.txt".toList
      "20240101-000000".toList).1.2 (by decide)⟩

/-! ## Properties of the fingerprints -/

theorem hexEncodeToString_length (bs : Bytes) :
    (hexEncodeToString bs).length = 2 * bs.length := by
  induction bs with
  | nil => rfl
  | cons v rest ih => simp only [hexEncodeToString, List.length_cons, ih]; omega

theorem hextable_getD_mem (i : Nat) : hextable.getD i '0' ∈ hextable := by
  rcases Nat.lt_or_ge i 16 with h | h
  · interval_cases i <;> decide
  · have : hextable.getD i '0' = '0' := by
      apply List.getD_eq_default
      exact h
    rw [this]
    decide

theorem hexEncodeToString_chars (bs : Bytes) : ∀ c ∈ hexEncodeToString bs, c ∈ hextable := by
  induction bs with
  | nil => intro c hc; cases hc
  | cons v rest ih =>
    intro c hc
    simp only [hexEncodeToString, List.mem_cons] at hc
    rcases hc with rfl | rfl | hc
    · exact hextable_getD_mem _
    · exact hextable_getD_mem _
    · exact ih c hc

set_option maxRecDepth 100000 in
theorem hexDecode_pair : ∀ v : Byte,
    (match fromHexChar (hextable.getD (v.val >>> 4) '0'),
        fromHexChar (hextable.getD (v.val &&& 0x0f) '0') with
      | some x, some y => some (x <<< 4 ||| y)
      | _, _ => none) = some v.val := by
  decide

/-- Decoding the hexadecimal text gives the bytes back. -/
theorem hexDecode_encode (bs : Bytes) :
    hexDecodeString (hexEncodeToString bs) = some (bs.map Fin.val) := by
  induction bs with
  | nil => rfl
  | cons v rest ih =>
    have hp := hexDecode_pair v
    simp only [hexEncodeToString, hexDecodeString, ih, List.map_cons]
    revert hp
    cases fromHexChar (hextable.getD (v.val >>> 4) '0') <;>
      cases fromHexChar (hextable.getD (v.val &&& 0x0f) '0') <;> simp

/-- C4: for every byte sequence, the empty one included, the three strings of
calculateFingerprints are the lowercase hexadecimal encodings of the MD5,
SHA-1 and SHA-256 digests of those bytes: they decode to the 16, 20 and 32
digest bytes, have lengths 32, 40 and 64, and hold only the characters 0-9
and a-f. -/
theorem calculateFingerprints_hex (h : Hashes) (certBytes : Bytes) :
    let md5Str := (calculateFingerprints h certBytes).1
    let sha1Str := (calculateFingerprints h certBytes).2.1
    let sha256Str := (calculateFingerprints h certBytes).2.2
    md5Str = hexEncodeToString (h.md5Sum certBytes).bytes
    ∧ sha1Str = hexEncodeToString (h.sha1Sum certBytes).bytes
    ∧ sha256Str = hexEncodeToString (h.sha256Sum256 certBytes).bytes
    ∧ hexDecodeString md5Str = some ((h.md5Sum certBytes).bytes.map Fin.val)
    ∧ hexDecodeString sha1Str = some ((h.sha1Sum certBytes).bytes.map Fin.val)
    ∧ hexDecodeString sha256Str = some ((h.sha256Sum256 certBytes).bytes.map Fin.val)
    ∧ (h.md5Sum certBytes).bytes.length = 16
    ∧ (h.sha1Sum certBytes).bytes.length = 20
    ∧ (h.sha256Sum256 certBytes).bytes.length = 32
    ∧ md5Str.length = 32 ∧ sha1Str.length = 40 ∧ sha256Str.length = 64
    ∧ (∀ c ∈ md5Str ++ sha1Str ++ sha256Str, c ∈ "0123456789abcdef".toList) := by
  intro md5Str sha1Str sha256Str
  refine ⟨rfl, rfl, rfl, hexDecode_encode _, hexDecode_encode _, hexDecode_encode _,
    (h.md5Sum certBytes).size, (h.sha1Sum certBytes).size, (h.sha256Sum256 certBytes).size,
    ?_, ?_, ?_, ?_⟩
  · show (hexEncodeToString _).length = 32
    rw [hexEncodeToString_length, (h.md5Sum certBytes).size]
  · show (hexEncodeToString _).length = 40
    rw [hexEncodeToString_length, (h.sha1Sum certBytes).size]
  · show (hexEncodeToString _).length = 64
    rw [hexEncodeToString_length, (h.sha256Sum256 certBytes).size]
  · intro c hc
    rcases List.mem_append.1 hc with hc | hc
    · rcases List.mem_append.1 hc with hc | hc
      · exact hexEncodeToString_chars _ c hc
      · exact hexEncodeToString_chars _ c hc
    · exact hexEncodeToString_chars _ c hc

/-! ## Properties of `generateAPKCert` -/

theorem newCalls_append (h l : History) : newCalls h (h ++ l) = l := by
  unfold newCalls
  exact List.drop_left _ _

/-- The history after the template has been built. -/
theorem certTemplate_history (env : Env) (cfg : Config) (h : History) :
    (certTemplate env cfg h).2 = h ++ [.now, .now, .now] := by
  simp [certTemplate]

/-- The certificate requests of a run of `generateAPKCert`: none when key
generation fails, otherwise the single request for the template, with the
template as parent and the generated key. -/
theorem generateAPKCert_certRequests (env : Env) (cfg : Config) (h : History) :
    certRequests (newCalls h (generateAPKCert env cfg h).2)
      = match env.rsaGenerateKey h .randReader RSABitsSize with
        | .error _ => []
        | .ok key =>
          [⟨.randReader, (certTemplate env cfg (h ++ [keyCall])).1,
            (certTemplate env cfg (h ++ [keyCall])).1, key.PublicKey, key⟩] := by
  unfold generateAPKCert GenRsaPK keyCall
  cases hk : env.rsaGenerateKey h .randReader RSABitsSize with
  | error err => simp [newCalls, certRequests]
  | ok key =>
    simp only []
    have hT := certTemplate_history env cfg (h ++ [.rsaGenerateKey .randReader RSABitsSize])
    generalize certTemplate env cfg (h ++ [.rsaGenerateKey .randReader RSABitsSize]) = T at hT ⊢
    rw [hT]
    repeat' split
    all_goals simp [newCalls, certRequests]

/-- The key requests of a run of `generateAPKCert`: one, for `RSABitsSize`
bits from `rand.Reader`. -/
theorem generateAPKCert_keyRequests (env : Env) (cfg : Config) (h : History) :
    keyRequests (newCalls h (generateAPKCert env cfg h).2) = [(.randReader, RSABitsSize)] := by
  unfold generateAPKCert GenRsaPK
  cases hk : env.rsaGenerateKey h .randReader RSABitsSize with
  | error err => simp [newCalls, keyRequests]
  | ok key =>
    simp only []
    have hT := certTemplate_history env cfg (h ++ [.rsaGenerateKey .randReader RSABitsSize])
    generalize certTemplate env cfg (h ++ [.rsaGenerateKey .randReader RSABitsSize]) = T at hT ⊢
    rw [hT]
    repeat' split
    all_goals simp [newCalls, keyRequests]

/-- A run of `generateAPKCert` succeeds exactly when its six fallible steps
succeed, each at the history it is made at; the run then consists of the calls
of `successfulRun`. -/
theorem generateAPKCert_ok_iff (env : Env) (cfg : Config) (h : History) (info : CertInfo)
    (hist : History) :
    generateAPKCert env cfg h = (.ok info, hist) ↔
      ∃ key certBytes,
        env.rsaGenerateKey h .randReader RSABitsSize = .ok key
        ∧ env.createCertificate (h ++ [keyCall, .now, .now, .now]) .randReader
            (certTemplate env cfg (h ++ [keyCall])).1
            (certTemplate env cfg (h ++ [keyCall])).1 key.PublicKey key = .ok certBytes
        ∧ parseCertInfo env certBytes = .ok info
        ∧ env.setPrivateKeyEntry (historyAtEntry env cfg h key ++ [.now])
            cfg.Keystore.KeyAlias (entryOfRun env cfg h key certBytes)
            (bytesOf cfg.Keystore.KeyPass) = .ok ()
        ∧ env.osCreate (historyAtCreate env cfg h key certBytes)
            cfg.Keystore.FilePath = .ok ()
        ∧ env.store (historyAtCreate env cfg h key certBytes ++ [.osCreate cfg.Keystore.FilePath])
            cfg.Keystore.FilePath (bytesOf cfg.Keystore.Password) = .ok ()
        ∧ hist = successfulRun env cfg h key certBytes := by
  unfold generateAPKCert GenRsaPK successfulRun historyAtCreate entryOfRun historyAtEntry keyCall
  cases hk : env.rsaGenerateKey h .randReader RSABitsSize with
  | error err => simp
  | ok key =>
    simp only []
    have hT := certTemplate_history env cfg (h ++ [.rsaGenerateKey .randReader RSABitsSize])
    generalize certTemplate env cfg (h ++ [.rsaGenerateKey .randReader RSABitsSize]) = T at hT ⊢
    rw [hT]
    repeat' split
    all_goals simp_all
    intro _
    exact eq_comm

/-- The validity window of the template: `NotBefore` is the second clock read
of the literal, `NotAfter` the third one moved by the configured years. -/
theorem certTemplate_validity (env : Env) (cfg : Config) (h : History) :
    (certTemplate env cfg h).1.NotBefore = env.now (h ++ [.now])
    ∧ (certTemplate env cfg h).1.NotAfter
        = (env.now (h ++ [.now, .now])).AddDate cfg.CA.ValidityYears 0 0 := by
  simp [certTemplate]

/-- C1, at a clock that advances by a microsecond from one call to the next:
the template's NotBefore is 2024-01-01 00:00:00.000002, its NotAfter for 100
years is 2124-01-01 00:00:00.000003, a microsecond after NotBefore plus 100
years; for 1, 10 and 100 years NotAfter differs from
NotBefore.AddDate(years, 0, 0); these are the bounds of the template that
generateAPKCert submits. -/
theorem certTemplate_validity_two_clock_reads :
    (certTemplate sampleEnv (withYears 100) [keyCall]).1.NotBefore = ⟨1704067200000002000⟩
    ∧ (certTemplate sampleEnv (withYears 100) [keyCall]).1.NotAfter = ⟨4859740800000003000⟩
    ∧ (certTemplate sampleEnv (withYears 100) [keyCall]).1.NotBefore.AddDate 100 0 0
        = ⟨4859740800000002000⟩
    ∧ (∀ years ∈ [1, 10, 100],
        (certTemplate sampleEnv (withYears years) [keyCall]).1.NotAfter
          ≠ (certTemplate sampleEnv (withYears years) [keyCall]).1.NotBefore.AddDate
              (withYears years).CA.ValidityYears 0 0)
    ∧ (certRequests (generateAPKCert sampleEnv (withYears 100) []).2).map
          (fun req => (req.template.NotBefore, req.template.NotAfter))
        = [(⟨1704067200000002000⟩, ⟨4859740800000003000⟩)] := by
  decide

/-- C2, counterexample: with zero validity years and every library call
succeeding, `generateAPKCert` returns the certificate information and the
keystore is stored. -/
theorem generateAPKCert_zero_years_succeeds :
    (withYears 0).CA.ValidityYears ≤ 0
    ∧ succeeded (generateAPKCert sampleEnv (withYears 0) []).1 = true
    ∧ stores (generateAPKCert sampleEnv (withYears 0) []).2
        = [("build/my-release-key.jks".toList, bytesOf "chrelyonly".toList)] := by
  decide

/-- With one clock reading for both bounds, the validity window is exactly
the configured number of years. -/
theorem certTemplate_validity_same_reading (env : Env) (cfg : Config) (h : History)
    (hread : env.now (h ++ [.now, .now]) = env.now (h ++ [.now])) :
    (certTemplate env cfg h).1.NotAfter
      = (certTemplate env cfg h).1.NotBefore.AddDate cfg.CA.ValidityYears 0 0 := by
  rw [(certTemplate_validity env cfg h).1, (certTemplate_validity env cfg h).2, hread]

theorem generateAPKCert_eta (env : Env) (cfg : Config) (h : History) (info : CertInfo)
    (hok : (generateAPKCert env cfg h).1 = .ok info) :
    generateAPKCert env cfg h = (.ok info, (generateAPKCert env cfg h).2) := by
  rw [← hok]

/-- C2, amended: `generateAPKCert` makes no check of the validity years.  For
every configuration, whatever the sign of its validity years, the run succeeds
exactly when key generation, certificate creation, certificate parsing, entry
protection, file creation and the keystore write succeed; the template it
submits has NotAfter equal to a clock reading moved by the configured years. -/
theorem generateAPKCert_no_validity_check (env : Env) (cfg : Config) (h : History) :
    (succeeded (generateAPKCert env cfg h).1 = true ↔
      ∃ key certBytes info,
        env.rsaGenerateKey h .randReader RSABitsSize = .ok key
        ∧ env.createCertificate (h ++ [keyCall, .now, .now, .now]) .randReader
            (certTemplate env cfg (h ++ [keyCall])).1
            (certTemplate env cfg (h ++ [keyCall])).1 key.PublicKey key = .ok certBytes
        ∧ parseCertInfo env certBytes = .ok info
        ∧ env.setPrivateKeyEntry (historyAtEntry env cfg h key ++ [.now])
            cfg.Keystore.KeyAlias (entryOfRun env cfg h key certBytes)
            (bytesOf cfg.Keystore.KeyPass) = .ok ()
        ∧ env.osCreate (historyAtCreate env cfg h key certBytes)
            cfg.Keystore.FilePath = .ok ()
        ∧ env.store (historyAtCreate env cfg h key certBytes ++ [.osCreate cfg.Keystore.FilePath])
            cfg.Keystore.FilePath (bytesOf cfg.Keystore.Password) = .ok ())
    ∧ (certTemplate env cfg (h ++ [keyCall])).1.NotAfter
        = (env.now (h ++ [keyCall, .now, .now])).AddDate cfg.CA.ValidityYears 0 0 := by
  constructor
  · constructor
    · intro hs
      cases hres : (generateAPKCert env cfg h).1 with
      | error err => rw [hres] at hs; cases hs
      | ok info =>
        obtain ⟨key, certBytes, h1, h2, h3, h4, h5, h6, _⟩ :=
          (generateAPKCert_ok_iff env cfg h info _).1 (generateAPKCert_eta env cfg h info hres)
        exact ⟨key, certBytes, info, h1, h2, h3, h4, h5, h6⟩
    · rintro ⟨key, certBytes, info, h1, h2, h3, h4, h5, h6⟩
      have := (generateAPKCert_ok_iff env cfg h info _).2
        ⟨key, certBytes, h1, h2, h3, h4, h5, h6, rfl⟩
      rw [this]
      rfl
  · have := (certTemplate_validity env cfg (h ++ [keyCall])).2
    simpa using this

/-- C2, witness: a run with a negative number of validity years in which the
six steps succeed. -/
theorem generateAPKCert_no_validity_check_witness :
    (withYears (-1)).CA.ValidityYears ≤ 0
    ∧ succeeded (generateAPKCert sampleEnv (withYears (-1)) []).1 = true
    ∧ (certTemplate sampleEnv (withYears (-1)) ([] ++ [keyCall])).1.NotAfter
        = ⟨1672531200000003000⟩ :=
  ⟨by decide,
   ((generateAPKCert_no_validity_check sampleEnv (withYears (-1)) []).1).2
     ⟨sampleKey, sampleDER, _, rfl, rfl, rfl, rfl, rfl, rfl⟩,
   ((generateAPKCert_no_validity_check sampleEnv (withYears (-1)) []).2).trans (by decide)⟩

/-- C3, counterexample: asked for 1024 bits, where the library produces a key,
`GenRsaPK` returns that key. -/
theorem GenRsaPK_accepts_1024 :
    (1024 : Int) < 2048
    ∧ GenRsaPK sampleEnv 1024 [] = (.ok sampleKey, [.rsaGenerateKey .randReader 1024]) :=
  ⟨by decide, rfl⟩

/-- C3, amended: `GenRsaPK` sets no minimum of its own.  For every bit
strength it hands the strength and `rand.Reader` to `rsa.GenerateKey` and
returns that result unchanged, so a strength below 2048 is rejected only where
the library rejects it; `generateAPKCert` asks for 2048 bits and nothing else. -/
theorem GenRsaPK_forwards (env : Env) (size : Int) (h : History) (cfg : Config) :
    (GenRsaPK env size h).1 = env.rsaGenerateKey h .randReader size
    ∧ newCalls h (GenRsaPK env size h).2 = [.rsaGenerateKey .randReader size]
    ∧ (succeeded (GenRsaPK env size h).1 = false
        ↔ succeeded (env.rsaGenerateKey h .randReader size) = false)
    ∧ keyRequests (newCalls h (generateAPKCert env cfg h).2) = [(.randReader, 2048)] := by
  refine ⟨rfl, ?_, Iff.rfl, generateAPKCert_keyRequests env cfg h⟩
  unfold GenRsaPK
  exact newCalls_append _ _

/-- C6: every certificate request of a run of generateAPKCert is self-signed.
Its parent is its template, so the issuer name, taken from the parent, is the
subject name field for field; the subject holds the five configured fields;
the signing key is the private key generated in this run and the certified
key is its public key. -/
theorem generateAPKCert_self_signed (env : Env) (cfg : Config) (h : History)
    (req : CertRequest)
    (hreq : req ∈ certRequests (newCalls h (generateAPKCert env cfg h).2)) :
    req.parent = req.template
    ∧ req.parent.Subject = req.template.Subject
    ∧ req.parent.Subject.Country = req.template.Subject.Country
    ∧ req.parent.Subject.Province = req.template.Subject.Province
    ∧ req.parent.Subject.Organization = req.template.Subject.Organization
    ∧ req.parent.Subject.OrganizationalUnit = req.template.Subject.OrganizationalUnit
    ∧ req.parent.Subject.CommonName = req.template.Subject.CommonName
    ∧ req.template.Subject =
        { Country := [cfg.CA.Country], Province := [cfg.CA.Province],
          Organization := [cfg.CA.Organization],
          OrganizationalUnit := [cfg.CA.OrganizationalUnit],
          CommonName := cfg.CA.CommonName }
    ∧ req.pub = req.priv.PublicKey
    ∧ env.rsaGenerateKey h .randReader RSABitsSize = .ok req.priv
    ∧ certRequests (newCalls h (generateAPKCert env cfg h).2) = [req] := by
  have hall := generateAPKCert_certRequests env cfg h
  cases hk : env.rsaGenerateKey h .randReader RSABitsSize with
  | error err =>
    rw [hk] at hall
    rw [hall] at hreq
    cases hreq
  | ok key =>
    rw [hk] at hall
    rw [hall] at hreq ⊢
    have hr := List.mem_singleton.1 hreq
    subst hr
    refine ⟨rfl, rfl, rfl, rfl, rfl, rfl, rfl, ?_, rfl, rfl, rfl⟩
    simp [certTemplate]

/-- C6, witness: the certificate request of a run with the test
configuration. -/
theorem generateAPKCert_self_signed_witness :
    ∃ req, req ∈ certRequests (newCalls [] (generateAPKCert sampleEnv testConfig []).2)
      ∧ req.parent = req.template
      ∧ req.template.Subject = sampleName
      ∧ req.pub = sampleKey.PublicKey ∧ req.priv = sampleKey :=
  ⟨⟨.randReader, (certTemplate sampleEnv testConfig [keyCall]).1,
      (certTemplate sampleEnv testConfig [keyCall]).1, sampleKey.PublicKey, sampleKey⟩,
    by decide,
    (generateAPKCert_self_signed sampleEnv testConfig [] _ (by decide)).1,
    by decide, rfl, rfl⟩

theorem wrapInt64_of_range (x : Int) (h0 : 0 ≤ x) (h1 : x < 2 ^ 63) : wrapInt64 x = x := by
  unfold wrapInt64
  have hlt : x + 2 ^ 63 < 2 ^ 64 := by
    have : (2 : Int) ^ 64 = 2 ^ 63 + 2 ^ 63 := by norm_num
    omega
  rw [Int.emod_eq_of_lt (by positivity) hlt]
  omega

/-- The serial numbers of a run: none when key generation fails, otherwise the
one serial read from the clock right after key generation. -/
theorem generateAPKCert_serials (env : Env) (cfg : Config) (h : History) (s : Int)
    (hs : s ∈ serials (newCalls h (generateAPKCert env cfg h).2)) :
    s = (env.now (h ++ [keyCall])).UnixNano := by
  unfold serials at hs
  rw [generateAPKCert_certRequests] at hs
  cases hk : env.rsaGenerateKey h .randReader RSABitsSize with
  | error err => rw [hk] at hs; cases hs
  | ok key =>
    rw [hk] at hs
    simp only [List.map_cons, List.map_nil, List.mem_singleton] at hs
    rw [hs]
    simp [certTemplate]

/-- C7, counterexample: two sequential runs, both successful, on a wall clock
that is set back between them; the two certificates carry the same serial
number. -/
theorem sequential_serials_equal :
    succeeded (generateAPKCert steppedBackEnv testConfig []).1 = true
    ∧ succeeded (generateAPKCert steppedBackEnv testConfig
        (generateAPKCert steppedBackEnv testConfig []).2).1 = true
    ∧ serials (newCalls [] (generateAPKCert steppedBackEnv testConfig []).2)
        = [1704067200000001000]
    ∧ serials (newCalls (generateAPKCert steppedBackEnv testConfig []).2
        (generateAPKCert steppedBackEnv testConfig
          (generateAPKCert steppedBackEnv testConfig []).2).2)
        = [1704067200000001000] := by
  decide

/-- C7, amended: the serial number of each certificate is the nanosecond Unix
time, as an int64, of the clock reading taken when its template is built.  The
serials of two sequential runs therefore differ exactly when those two
readings differ; when the first reading is after the epoch and the clock has
advanced to the second one within the int64 range, both serials are positive
and the second is the larger. -/
theorem sequential_serials (env : Env) (cfg₁ cfg₂ : Config) (h : History) (s₁ s₂ : Int)
    (hs₁ : s₁ ∈ serials (newCalls h (generateAPKCert env cfg₁ h).2))
    (hs₂ : s₂ ∈ serials (newCalls (generateAPKCert env cfg₁ h).2
      (generateAPKCert env cfg₂ (generateAPKCert env cfg₁ h).2).2)) :
    s₁ = (env.now (h ++ [keyCall])).UnixNano
    ∧ s₂ = (env.now ((generateAPKCert env cfg₁ h).2 ++ [keyCall])).UnixNano
    ∧ (s₁ ≠ s₂ ↔ (env.now (h ++ [keyCall])).UnixNano
        ≠ (env.now ((generateAPKCert env cfg₁ h).2 ++ [keyCall])).UnixNano)
    ∧ (0 < (env.now (h ++ [keyCall])).nanos →
        (env.now (h ++ [keyCall])).nanos
          < (env.now ((generateAPKCert env cfg₁ h).2 ++ [keyCall])).nanos →
        (env.now ((generateAPKCert env cfg₁ h).2 ++ [keyCall])).nanos < 2 ^ 63 →
        0 < s₁ ∧ s₁ < s₂) := by
  have e₁ := generateAPKCert_serials env cfg₁ h s₁ hs₁
  have e₂ := generateAPKCert_serials env cfg₂ _ s₂ hs₂
  refine ⟨e₁, e₂, by rw [e₁, e₂], ?_⟩
  intro hpos hlt hmax
  rw [e₁, e₂]
  unfold Time.UnixNano
  rw [wrapInt64_of_range _ (le_of_lt hpos) (lt_trans hlt hmax),
    wrapInt64_of_range _ (le_of_lt (lt_trans hpos hlt)) hmax]
  exact ⟨hpos, hlt⟩

/-- C7, witness: two sequential runs on a clock that advances; the serials are
the two readings, positive and increasing. -/
theorem sequential_serials_witness :
    (1704067200000001000 : Int) ∈ serials (newCalls [] (generateAPKCert sampleEnv testConfig []).2)
    ∧ (1704067200000013000 : Int) ∈ serials (newCalls (generateAPKCert sampleEnv testConfig []).2
        (generateAPKCert sampleEnv testConfig (generateAPKCert sampleEnv testConfig []).2).2)
    ∧ (1704067200000001000 : Int) ≠ 1704067200000013000
    ∧ (0 : Int) < 1704067200000001000 :=
  ⟨by decide, by decide,
   ((sequential_serials sampleEnv testConfig testConfig [] 1704067200000001000
      1704067200000013000 (by decide) (by decide)).2.2.2
        (by decide) (by decide) (by decide)).2.ne,
   ((sequential_serials sampleEnv testConfig testConfig [] 1704067200000001000
      1704067200000013000 (by decide) (by decide)).2.2.2
        (by decide) (by decide) (by decide)).1⟩

/-- The fingerprints of a parsed certificate are those of the parsed bytes. -/
theorem parseCertInfo_fingerprints (env : Env) (certBytes : Bytes) (info : CertInfo)
    (hp : parseCertInfo env certBytes = .ok info) :
    (info.MD5Fingerprint, info.SHA1Fingerprint, info.SHA256Fingerprint)
      = calculateFingerprints env.hashes certBytes := by
  unfold parseCertInfo at hp
  cases hc : env.parseCertificate certBytes with
  | error err => rw [hc] at hp; cases hp
  | ok cert =>
    rw [hc] at hp
    simp only [Except.ok.injEq] at hp
    rw [← hp]

/-- C9, counterexample: a successful run whose configured alias is TestKey;
the entry is handed over under that alias, and the keystore made by
`keystore.New()` keeps it under testkey. -/
theorem generateAPKCert_alias_lowered :
    succeeded (generateAPKCert sampleEnv mixedCaseConfig []).1 = true
    ∧ mixedCaseConfig.Keystore.KeyAlias = "TestKey".toList
    ∧ (entriesSet (newCalls [] (generateAPKCert sampleEnv mixedCaseConfig []).2)).map (·.1)
        = ["TestKey".toList]
    ∧ keystoreKeys sampleEnv (newCalls [] (generateAPKCert sampleEnv mixedCaseConfig []).2)
        = ["testkey".toList]
    ∧ keystoreKeys sampleEnv (newCalls [] (generateAPKCert sampleEnv mixedCaseConfig []).2)
        ≠ [mixedCaseConfig.Keystore.KeyAlias] := by
  decide

/-- C9, amended: on every successful run of generateAPKCert there are a key
and DER bytes, returned by key generation and certificate creation, such that:
the run is the sequence of calls of `successfulRun`; the one entry handed to
the keystore has the chain of exactly one certificate, tagged "X509", with
those bytes as content, and the marshalled key; it is handed over with the
configured alias and the entry password, that step succeeded, and the
keystore keeps it under the alias in lower case, which is the configured
alias when lower-casing leaves it unchanged; the keystore file was created at
the configured path and the one keystore write, to that path with the
container password, succeeded; the fingerprints returned are
calculateFingerprints of the same bytes. -/
theorem generateAPKCert_keystore (env : Env) (cfg : Config) (h : History) (info : CertInfo)
    (hok : (generateAPKCert env cfg h).1 = .ok info) :
    ∃ key certBytes,
      env.rsaGenerateKey h .randReader RSABitsSize = .ok key
      ∧ env.createCertificate (h ++ [keyCall, .now, .now, .now]) .randReader
          (certTemplate env cfg (h ++ [keyCall])).1
          (certTemplate env cfg (h ++ [keyCall])).1 key.PublicKey key = .ok certBytes
      ∧ (generateAPKCert env cfg h).2 = successfulRun env cfg h key certBytes
      ∧ entriesSet (newCalls h (generateAPKCert env cfg h).2)
          = [(cfg.Keystore.KeyAlias, entryOfRun env cfg h key certBytes,
              bytesOf cfg.Keystore.KeyPass)]
      ∧ (entryOfRun env cfg h key certBytes).CertificateChain
          = [{ Type_ := "X509".toList, Content := certBytes }]
      ∧ (entryOfRun env cfg h key certBytes).PrivateKey = env.marshalPKCS1PrivateKey key
      ∧ env.setPrivateKeyEntry (historyAtEntry env cfg h key ++ [.now])
          cfg.Keystore.KeyAlias (entryOfRun env cfg h key certBytes)
          (bytesOf cfg.Keystore.KeyPass) = .ok ()
      ∧ keystoreKeys env (newCalls h (generateAPKCert env cfg h).2)
          = [convertAlias env cfg.Keystore.KeyAlias]
      ∧ ((∀ c ∈ cfg.Keystore.KeyAlias, env.toLower c = c) →
          keystoreKeys env (newCalls h (generateAPKCert env cfg h).2)
            = [cfg.Keystore.KeyAlias])
      ∧ env.osCreate (historyAtCreate env cfg h key certBytes) cfg.Keystore.FilePath = .ok ()
      ∧ env.store (historyAtCreate env cfg h key certBytes ++ [.osCreate cfg.Keystore.FilePath])
          cfg.Keystore.FilePath (bytesOf cfg.Keystore.Password) = .ok ()
      ∧ stores (newCalls h (generateAPKCert env cfg h).2)
          = [(cfg.Keystore.FilePath, bytesOf cfg.Keystore.Password)]
      ∧ (info.MD5Fingerprint, info.SHA1Fingerprint, info.SHA256Fingerprint)
          = calculateFingerprints env.hashes certBytes := by
  obtain ⟨key, certBytes, h1, h2, h3, h4, h5, h6, hhist⟩ :=
    (generateAPKCert_ok_iff env cfg h info _).1 (generateAPKCert_eta env cfg h info hok)
  have hset : entriesSet (newCalls h (generateAPKCert env cfg h).2)
      = [(cfg.Keystore.KeyAlias, entryOfRun env cfg h key certBytes,
          bytesOf cfg.Keystore.KeyPass)] := by
    rw [hhist]
    simp [successfulRun, historyAtCreate, historyAtEntry, newCalls, entriesSet, keyCall]
  have hkeys : keystoreKeys env (newCalls h (generateAPKCert env cfg h).2)
      = [convertAlias env cfg.Keystore.KeyAlias] := by
    unfold keystoreKeys
    rw [hset]
    rfl
  refine ⟨key, certBytes, h1, h2, hhist, hset, rfl, rfl, h4, hkeys, ?_, h5, h6, ?_,
    parseCertInfo_fingerprints env certBytes info h3⟩
  · intro hlow
    rw [hkeys]
    unfold convertAlias
    rw [List.map_congr_left hlow, List.map_id']
  · rw [hhist]
    simp [successfulRun, historyAtCreate, historyAtEntry, newCalls, stores, keyCall]

/-- C9, witness: a successful run with alias testkey, container password pw1
and entry password pw2. -/
theorem generateAPKCert_keystore_witness :
    ∃ info key certBytes,
      (generateAPKCert sampleEnv testConfig []).1 = .ok info
      ∧ key = sampleKey
      ∧ certBytes = sampleDER
      ∧ entriesSet (newCalls [] (generateAPKCert sampleEnv testConfig []).2)
          = [("testkey".toList, entryOfRun sampleEnv testConfig [] key certBytes,
              bytesOf "pw2".toList)]
      ∧ (entryOfRun sampleEnv testConfig [] key certBytes).CertificateChain
          = [{ Type_ := "X509".toList, Content := certBytes }]
      ∧ keystoreKeys sampleEnv (newCalls [] (generateAPKCert sampleEnv testConfig []).2)
          = ["testkey".toList]
      ∧ stores (newCalls [] (generateAPKCert sampleEnv testConfig []).2)
          = [("build/test.jks".toList, bytesOf "pw1".toList)] := by
  obtain ⟨key, certBytes, h1, h2, _, h4, h5, _, _, _, h9, _, _, h12, _⟩ :=
    generateAPKCert_keystore sampleEnv testConfig [] _ rfl
  exact ⟨_, key, certBytes, rfl, (Except.ok.inj h1).symm, (Except.ok.inj h2).symm, h4, h5,
    h9 (by decide), h12⟩

/-! ## Properties of `main` -/

theorem saveCertInfoToFile_history (env : Env) (filename : Str) (cfg : Config)
    (certInfo : CertInfo) (h : History) :
    ∃ l, (saveCertInfoToFile env filename cfg certInfo h).2 = h ++ l := by
  unfold saveCertInfoToFile
  cases env.osCreate h filename with
  | error err => exact ⟨_, rfl⟩
  | ok u => exact ⟨_, by simp only [List.append_assoc]; rfl⟩

/-- Function `runPipeline` runs `generateAPKCert` on the stamped configuration, and
returns exactly when that run succeeds. -/
theorem runPipeline_generates (env : Env) (cfg : Config) (h : History) :
    (generateAPKCert env (stampedConfig env cfg h) (h ++ [.now])).2 <+: (runPipeline env cfg h).2
    ∧ ((runPipeline env cfg h).1 = .returned
        ↔ succeeded (generateAPKCert env (stampedConfig env cfg h) (h ++ [.now])).1 = true) := by
  have hrun : runPipeline env cfg h
      = match generateAPKCert env (stampedConfig env cfg h) (h ++ [.now]) with
        | (.error err, h) =>
          (.fatal, h ++ [.logPrint ("生成APK签名证书失败: ".toList ++ err.msg)])
        | (.ok certInfo, h2) =>
          (.returned,
            (match saveCertInfoToFile env
                (generateTimestampedFilename (env.now h).FormatStamp cfg.Keystore.FilePath).2
                (stampedConfig env cfg h) certInfo h2 with
              | (.error err, h) => h ++ [.logPrint ("保存证书信息文件失败: ".toList ++ err.msg)]
              | (.ok _, h) => h)
            ++ (consoleTexts (stampedConfig env cfg h)
                (generateTimestampedFilename (env.now h).FormatStamp cfg.Keystore.FilePath).2
                certInfo).map Call.print) := rfl
  rw [hrun]
  generalize generateAPKCert env (stampedConfig env cfg h) (h ++ [.now]) = g
  rcases g with ⟨r, hist⟩
  cases r with
  | error err => exact ⟨⟨_, rfl⟩, by simp [succeeded]⟩
  | ok info =>
    simp only [succeeded]
    refine ⟨?_, by simp⟩
    obtain ⟨l, hl⟩ := saveCertInfoToFile_history env
      (generateTimestampedFilename (env.now h).FormatStamp cfg.Keystore.FilePath).2
      (stampedConfig env cfg h) info hist
    rcases hsv : saveCertInfoToFile env
      (generateTimestampedFilename (env.now h).FormatStamp cfg.Keystore.FilePath).2
      (stampedConfig env cfg h) info hist with ⟨r2, h2⟩
    rw [hsv] at hl
    simp only at hl
    subst hl
    cases r2 with
    | error err => exact ⟨_, by simp only [List.append_assoc]; rfl⟩
    | ok u => exact ⟨_, by simp only [List.append_assoc]; rfl⟩

/-- Every run of `generateAPKCert` asks for the key. -/
theorem generateAPKCert_keyCall_mem (env : Env) (cfg : Config) (h : History) :
    keyCall ∈ (generateAPKCert env cfg h).2 := by
  unfold generateAPKCert GenRsaPK keyCall
  cases hk : env.rsaGenerateKey h .randReader RSABitsSize with
  | error err => simp
  | ok key =>
    simp only []
    have hT := certTemplate_history env cfg (h ++ [.rsaGenerateKey .randReader RSABitsSize])
    generalize certTemplate env cfg (h ++ [.rsaGenerateKey .randReader RSABitsSize]) = T at hT ⊢
    rw [hT]
    repeat' split
    all_goals simp

theorem runPipeline_keyCall_mem (env : Env) (cfg : Config) (h : History) :
    keyCall ∈ (runPipeline env cfg h).2 :=
  (runPipeline_generates env cfg h).1.subset (generateAPKCert_keyCall_mem env _ _)

/-- Function `loadConfig` fails exactly when the file cannot be read or its content is
not accepted by `json.Unmarshal`. -/
theorem loadConfig_fails_iff (env : Env) (filename : Str) (h : History) :
    succeeded (loadConfig env filename h).1 = false ↔
      succeeded (env.readFile h filename) = false
      ∨ ∃ data, env.readFile h filename = .ok data
          ∧ succeeded (env.jsonUnmarshal data) = false := by
  unfold loadConfig
  cases hr : env.readFile h filename with
  | error err => simp [succeeded]
  | ok data =>
    cases hj : env.jsonUnmarshal data with
    | error err => simp [succeeded, hj]
    | ok cfg => simp [succeeded, hj]

theorem loadConfig_history (env : Env) (filename : Str) (h : History) :
    (loadConfig env filename h).2 = h ++ [.readFile filename] := by
  unfold loadConfig
  cases env.readFile h filename with
  | error err => rfl
  | ok data =>
    cases hj : env.jsonUnmarshal data with
    | error err => simp [hj]
    | ok cfg => simp [hj]

/-- Function `loadConfig` succeeds exactly with the configuration that
`json.Unmarshal` decodes from the bytes read from the file. -/
theorem loadConfig_ok_iff (env : Env) (filename : Str) (h : History) (cfg : Config) :
    (loadConfig env filename h).1 = .ok cfg ↔
      ∃ data, env.readFile h filename = .ok data ∧ env.jsonUnmarshal data = .ok cfg := by
  unfold loadConfig
  cases hr : env.readFile h filename with
  | error err => simp
  | ok data =>
    cases hj : env.jsonUnmarshal data with
    | error err => simp [hj]
    | ok cfg2 => simp [hj]

/-- The part of `main` after the configuration is chosen, step by step. -/
theorem runPipeline_steps (env : Env) (cfg : Config) (h : History) :
    runPipeline env cfg h
      = match generateAPKCert env (stampedConfig env cfg h) (h ++ [.now]) with
        | (.error err, h) =>
          (.fatal, h ++ [.logPrint ("生成APK签名证书失败: ".toList ++ err.msg)])
        | (.ok certInfo, h2) =>
          (.returned,
            (match saveCertInfoToFile env
                (generateTimestampedFilename (env.now h).FormatStamp cfg.Keystore.FilePath).2
                (stampedConfig env cfg h) certInfo h2 with
              | (.error err, h) => h ++ [.logPrint ("保存证书信息文件失败: ".toList ++ err.msg)]
              | (.ok _, h) => h)
            ++ (consoleTexts (stampedConfig env cfg h)
                (generateTimestampedFilename (env.now h).FormatStamp cfg.Keystore.FilePath).2
                certInfo).map Call.print) :=
  rfl

/-- C8: loading fails exactly when the file cannot be read or is not valid
JSON, and succeeds exactly with the configuration decoded from the bytes read
from build/config.json.  When it fails the run is not aborted but continues,
through key generation, with the built-in default configuration, whose fields
are the documented ones; when it succeeds the run continues with the decoded
configuration.  In both cases the configuration reaches generateAPKCert, the
report and the console unchanged apart from the keystore path, which becomes
the timestamped one. -/
theorem main_configuration (env : Env) (h : History) :
    (succeeded (loadConfig env ConfigFilename h).1 = false ↔
      succeeded (env.readFile h ConfigFilename) = false
      ∨ ∃ data, env.readFile h ConfigFilename = .ok data
          ∧ succeeded (env.jsonUnmarshal data) = false)
    ∧ (succeeded (loadConfig env ConfigFilename h).1 = false →
        main env h = runPipeline env defaultConfig
          (h ++ [.readFile ConfigFilename, .logPrint "加载配置失败，使用默认值".toList]))
    ∧ (∀ cfg, (loadConfig env ConfigFilename h).1 = .ok cfg →
        main env h = runPipeline env cfg (h ++ [.readFile ConfigFilename]))
    ∧ defaultConfig =
        { Keystore := {
            FilePath := "build/my-release-key.jks".toList
            Password := "chrelyonly".toList
            KeyAlias := "chrelyonly".toList
            KeyPass := "chrelyonly".toList }
          CA := {
            Country := "CN".toList
            Province := "Yunnan".toList
            Organization := "chrelyonly".toList
            OrganizationalUnit := "chrelyonly".toList
            CommonName := "chrelyonly CA".toList
            ValidityYears := 100 } }
    ∧ keyCall ∈ (main env h).2
    ∧ (∀ cfg hist,
        (generateAPKCert env (stampedConfig env cfg hist) (hist ++ [.now])).2
          <+: (runPipeline env cfg hist).2
        ∧ ((runPipeline env cfg hist).1 = .returned ↔
            succeeded (generateAPKCert env (stampedConfig env cfg hist) (hist ++ [.now])).1
              = true)
        ∧ (stampedConfig env cfg hist).CA = cfg.CA
        ∧ (stampedConfig env cfg hist).Keystore.Password = cfg.Keystore.Password
        ∧ (stampedConfig env cfg hist).Keystore.KeyAlias = cfg.Keystore.KeyAlias
        ∧ (stampedConfig env cfg hist).Keystore.KeyPass = cfg.Keystore.KeyPass
        ∧ (stampedConfig env cfg hist).Keystore.FilePath
            = (generateTimestampedFilename (env.now hist).FormatStamp
                cfg.Keystore.FilePath).1)
    ∧ (∀ cfg, (loadConfig env ConfigFilename h).1 = .ok cfg ↔
        ∃ data, env.readFile h ConfigFilename = .ok data ∧ env.jsonUnmarshal data = .ok cfg)
    ∧ (loadConfig env ConfigFilename h).2 = h ++ [.readFile ConfigFilename]
    ∧ (∀ data cfg, env.readFile h ConfigFilename = .ok data →
        env.jsonUnmarshal data = .ok cfg →
        main env h = runPipeline env cfg (h ++ [.readFile ConfigFilename])
        ∧ (generateAPKCert env (stampedConfig env cfg (h ++ [.readFile ConfigFilename]))
            (h ++ [.readFile ConfigFilename] ++ [.now])).2 <+: (main env h).2)
    ∧ ((succeeded (env.readFile h ConfigFilename) = false
        ∨ ∃ data, env.readFile h ConfigFilename = .ok data
            ∧ succeeded (env.jsonUnmarshal data) = false) →
        (generateAPKCert env
            (stampedConfig env defaultConfig
              (h ++ [.readFile ConfigFilename, .logPrint "加载配置失败，使用默认值".toList]))
            (h ++ [.readFile ConfigFilename, .logPrint "加载配置失败，使用默认值".toList]
              ++ [.now])).2 <+: (main env h).2)
    ∧ ∀ cfg hist, runPipeline env cfg hist
        = match generateAPKCert env (stampedConfig env cfg hist) (hist ++ [.now]) with
          | (.error err, h) =>
            (.fatal, h ++ [.logPrint ("生成APK签名证书失败: ".toList ++ err.msg)])
          | (.ok certInfo, h2) =>
            (.returned,
              (match saveCertInfoToFile env
                  (generateTimestampedFilename (env.now hist).FormatStamp
                    cfg.Keystore.FilePath).2
                  (stampedConfig env cfg hist) certInfo h2 with
                | (.error err, h) =>
                  h ++ [.logPrint ("保存证书信息文件失败: ".toList ++ err.msg)]
                | (.ok _, h) => h)
              ++ (consoleTexts (stampedConfig env cfg hist)
                  (generateTimestampedFilename (env.now hist).FormatStamp
                    cfg.Keystore.FilePath).2
                  certInfo).map Call.print) := by
  have hhist := loadConfig_history env ConfigFilename h
  have hfail : succeeded (loadConfig env ConfigFilename h).1 = false →
      main env h = runPipeline env defaultConfig
        (h ++ [.readFile ConfigFilename, .logPrint "加载配置失败，使用默认值".toList]) := by
    intro hf
    unfold main
    rcases hl : loadConfig env ConfigFilename h with ⟨r, h2⟩
    rw [hl] at hhist hf
    simp only at hhist
    subst hhist
    cases r with
    | error err => simp only [List.append_assoc]; rfl
    | ok cfg => cases hf
  have hok : ∀ cfg, (loadConfig env ConfigFilename h).1 = .ok cfg →
      main env h = runPipeline env cfg (h ++ [.readFile ConfigFilename]) := by
    intro cfg hc
    unfold main
    rcases hl : loadConfig env ConfigFilename h with ⟨r, h2⟩
    rw [hl] at hhist hc
    simp only at hhist hc
    subst hhist
    subst hc
    rfl
  refine ⟨loadConfig_fails_iff env ConfigFilename h, hfail, hok, rfl, ?_, ?_,
    fun cfg => loadConfig_ok_iff env ConfigFilename h cfg, hhist, ?_, ?_,
    fun cfg hist => runPipeline_steps env cfg hist⟩
  · cases hr : (loadConfig env ConfigFilename h).1 with
    | error err =>
      rw [hfail (by rw [hr]; rfl)]
      exact runPipeline_keyCall_mem _ _ _
    | ok cfg =>
      rw [hok cfg hr]
      exact runPipeline_keyCall_mem _ _ _
  · intro cfg hist
    exact ⟨(runPipeline_generates env cfg hist).1, (runPipeline_generates env cfg hist).2,
      rfl, rfl, rfl, rfl, rfl⟩
  · intro data cfg hr hj
    have hm := hok cfg ((loadConfig_ok_iff env ConfigFilename h cfg).2 ⟨data, hr, hj⟩)
    refine ⟨hm, ?_⟩
    rw [hm]
    exact (runPipeline_generates env cfg _).1
  · intro hf
    rw [hfail ((loadConfig_fails_iff env ConfigFilename h).2 hf)]
    exact (runPipeline_generates env defaultConfig _).1

/-- The decoder of `configuredEnv` reads `loadedConfig` from `configFile`. -/
theorem configuredEnv_decodes : configuredEnv.jsonUnmarshal configFile = .ok loadedConfig := by
  simp [configuredEnv]

set_option maxRecDepth 100000 in
/-- C8, witness: with the configuration file missing the run uses the default
configuration and returns; with the file present it uses the configuration
decoded from it, for the keystore and for the certificate. -/
theorem main_configuration_witness :
    succeeded (loadConfig sampleEnv ConfigFilename []).1 = false
    ∧ main sampleEnv [] = runPipeline sampleEnv defaultConfig
        ([] ++ [.readFile ConfigFilename, .logPrint "加载配置失败，使用默认值".toList])
    ∧ (main sampleEnv []).1 = .returned
    ∧ stores (main sampleEnv []).2
        = [("build/my-release-key-20240101-000000.jks".toList, bytesOf "chrelyonly".toList)]
    ∧ configuredEnv.readFile [] ConfigFilename = .ok configFile
    ∧ configuredEnv.jsonUnmarshal configFile = .ok loadedConfig
    ∧ main configuredEnv [] = runPipeline configuredEnv loadedConfig
        ([] ++ [.readFile ConfigFilename])
    ∧ stores (main configuredEnv []).2
        = [("out/app-20240101-000000.jks".toList, bytesOf "s3cret".toList)]
    ∧ (entriesSet (main configuredEnv []).2).map (fun e => (e.1, e.2.2))
        = [("release".toList, bytesOf "k3y".toList)]
    ∧ (certRequests (main configuredEnv []).2).map (·.template.Subject.CommonName)
        = ["Acme CA".toList] :=
  ⟨by decide,
   (main_configuration sampleEnv []).2.1 (by decide),
   by decide, by decide, rfl, configuredEnv_decodes,
   ((main_configuration configuredEnv []).2.2.2.2.2.2.2.2.1 configFile loadedConfig rfl
      configuredEnv_decodes).1,
   by decide, by decide, by decide⟩

end JKS
